import Mathlib

/-!
Verification of the Elasticsearch storage adapter
(src/lightrag/kg/elasticsearch_impl.py).

The Python module is shallowly embedded: Elasticsearch documents are
association lists of JSON-like values, an index is an association list from
document id to document, and each storage operation is translated into a pure
Lean function.  Backend interactions (mget / bulk / search / scroll) are
modelled explicitly: a fallible call is a value of `Except String _`, the
calls an operation issues are returned alongside its result, and the scroll
and hybrid-search endpoints are given executable semantics.
-/

/-- JSON-like field values stored in Elasticsearch documents. -/
inductive JVal where
  | null : JVal
  | str (s : String) : JVal
  | num (n : Int) : JVal
  | arr (xs : List JVal) : JVal
  | obj (fs : List (String × JVal)) : JVal

/-- An Elasticsearch `_source` document: an insertion-ordered field mapping. -/
abbrev Doc := List (String × JVal)

/-- An index: mapping from `_id` to stored `_source`, unique ids. -/
abbrev Store := List (String × Doc)

/-- Dictionary lookup (`d.get(k)` / `d[k]`), first matching key. -/
def lookupKV (l : List (String × α)) (k : String) : Option α :=
  match l with
  | [] => none
  | (k', v) :: t => if k' = k then some v else lookupKV t k

/-- Python `k in d`. -/
def containsKV (l : List (String × α)) (k : String) : Bool :=
  (lookupKV l k).isSome

/-- Dictionary assignment `d[k] = v`: replaces in place or appends. -/
def setKV (l : List (String × α)) (k : String) (v : α) : List (String × α) :=
  match l with
  | [] => [(k, v)]
  | (k', v') :: t => if k' = k then (k, v) :: t else (k', v') :: setKV t k v

/-- Python `d.pop(k, None)`: removes the key if present. -/
def eraseKV (l : List (String × α)) (k : String) : List (String × α) :=
  match l with
  | [] => []
  | (k', v') :: t => if k' = k then eraseKV t k else (k', v') :: eraseKV t k

/-- Python `d.setdefault(k, v)`. -/
def setDefaultKV (l : List (String × α)) (k : String) (v : α) : List (String × α) :=
  if containsKV l k then l else setKV l k v

/-- Python `s.endswith(t)`, on code points. -/
def pyEndsWith (s t : String) : Bool :=
  t.data.isSuffixOf s.data

/-- A backend call issued by a storage operation. -/
inductive ESCall where
  | mget (ids : List String)
  | mgetSet (keys : Finset String)
  | bulkIndex (actions : List (String × Doc))
  | bulkDelete (ids : List String)
  | search

/-- `doc.setdefault("create_time", 0); doc.setdefault("update_time", 0)` applied
by the KV read paths to every returned `_source`. -/
def esSetDefaultsCU (d : Doc) : Doc :=
  setDefaultKV (setDefaultKV d "create_time" (JVal.num 0)) "update_time" (JVal.num 0)

namespace ElasticsearchKVStorage

/-- `ElasticsearchKVStorage.get_by_ids` (elasticsearch_impl.py lines 288-314).
`backend` is the outcome of the single `mget` call: `.ok store` means the call
answered against index contents `store` (Elasticsearch returns one `docs` entry
per requested id, in request order), `.error` means the call raised.  Returns
the result list and the backend calls issued. -/
def get_by_ids (backend : Except String Store) (ids : List String) :
    List (Option Doc) × List ESCall :=
  if ids.isEmpty then ([], [])
  else
    match backend with
    | .error _ => (List.replicate ids.length none, [ESCall.mget ids])
    | .ok store =>
      let docs := ids.map (fun id => (id, lookupKV store id))
      let docMap : Store := docs.foldl (fun m d =>
        match d.2 with
        | some src => setKV m d.1 (esSetDefaultsCU src)
        | none => m) []
      (ids.map (fun id => lookupKV docMap id), [ESCall.mget ids])

/-- `ElasticsearchKVStorage.filter_keys` (lines 316-332): returns the keys that
do not exist in storage; on a backend error returns the full input set. -/
def filter_keys (backend : Except String Store) (keys : Finset String) :
    Finset String × List ESCall :=
  if keys = ∅ then (∅, [])
  else
    match backend with
    | .error _ => (keys, [ESCall.mgetSet keys])
    | .ok store =>
      (keys \ keys.filter (fun k => containsKV store k), [ESCall.mgetSet keys])

/-- The per-entry document preparation inside `ElasticsearchKVStorage.upsert`
(lines 380-399): for `text_chunks` namespaces default `llm_cache_list`, set
`update_time` to now, and set `create_time` to now only when absent. -/
def upsertDoc (ns : String) (now : Int) (v : Doc) : Doc :=
  let v' := if pyEndsWith ns "text_chunks" && !(containsKV v "llm_cache_list")
            then setKV v "llm_cache_list" (JVal.arr []) else v
  let doc := setKV v' "update_time" (JVal.num now)
  if containsKV doc "create_time" then doc
  else setKV doc "create_time" (JVal.num now)

/-- `ElasticsearchKVStorage.upsert` (lines 372-413).  Builds one bulk action per
entry via `upsertDoc`; the bulk request indexes every action by id, overwriting
existing documents. -/
def upsert (ns : String) (store : Store) (data : List (String × Doc))
    (now : Int) : Store × List ESCall :=
  if data.isEmpty then (store, [])
  else
    let actions := data.map (fun kv => (kv.1, upsertDoc ns now kv.2))
    (actions.foldl (fun s a => setKV s a.1 a.2) store, [ESCall.bulkIndex actions])

/-- `ElasticsearchKVStorage.delete` (lines 423-452): bulk delete by id. -/
def delete (store : Store) (ids : List String) : Store × List ESCall :=
  if ids.isEmpty then (store, [])
  else (ids.foldl (fun s i => eraseKV s i) store, [ESCall.bulkDelete ids])

end ElasticsearchKVStorage

namespace ElasticsearchVectorStorage

/-- `ElasticsearchVectorStorage.get_by_ids` (lines 1126-1146): iterates the
`mget` response docs in request order, appending only the found ones (with the
`id` field filled in); on a backend error returns the empty list. -/
def get_by_ids (backend : Except String Store) (ids : List String) :
    List Doc × List ESCall :=
  if ids.isEmpty then ([], [])
  else
    match backend with
    | .error _ => ([], [ESCall.mget ids])
    | .ok store =>
      let docs := ids.map (fun id => (id, lookupKV store id))
      (docs.foldl (fun rs d =>
        match d.2 with
        | some src => rs ++ [setKV src "id" (JVal.str d.1)]
        | none => rs) [], [ESCall.mget ids])

end ElasticsearchVectorStorage

/-! ### Helper lemmas about the association-list primitives -/

theorem lookupKV_setKV_self (l : List (String × α)) (k : String) (v : α) :
    lookupKV (setKV l k v) k = some v := by
  induction l with
  | nil => simp [setKV, lookupKV]
  | cons h t ih =>
    obtain ⟨k', v'⟩ := h
    by_cases hk : k' = k
    · simp [setKV, hk, lookupKV]
    · simp [setKV, hk, lookupKV, ih]

theorem lookupKV_setKV_ne (l : List (String × α)) (k k' : String) (v : α)
    (h : k' ≠ k) : lookupKV (setKV l k' v) k = lookupKV l k := by
  induction l with
  | nil => simp [setKV, lookupKV, h]
  | cons hd t ih =>
    obtain ⟨k0, v0⟩ := hd
    by_cases hk : k0 = k'
    · subst hk
      simp [setKV, lookupKV, h]
    · simp [setKV, hk, lookupKV, ih]

/-- Lookup in the `doc_map` built by `get_by_ids` from aligned mget docs. -/
theorem lookupKV_docMapFold (store : Store) (f : Doc → Doc) :
    ∀ (ps : List (String × Option Doc)) (m : Store) (k : String),
      (∀ p ∈ ps, p.2 = lookupKV store p.1) →
      lookupKV (ps.foldl (fun m d =>
        match d.2 with
        | some src => setKV m d.1 (f src)
        | none => m) m) k =
      if ps.any (fun p => p.1 = k && p.2.isSome) then (lookupKV store k).map f
      else lookupKV m k := by
  intro ps
  induction ps with
  | nil => intro m k _; simp
  | cons p rest ih =>
    obtain ⟨pk, pv⟩ := p
    intro m k hps
    have hp : pv = lookupKV store pk := hps (pk, pv) (List.mem_cons_self _ _)
    have hrest : ∀ q ∈ rest, q.2 = lookupKV store q.1 := fun q hq =>
      hps q (List.mem_cons_of_mem _ hq)
    cases pv with
    | none =>
      simp only [List.foldl_cons, List.any_cons]
      rw [ih m k hrest]
      simp only [Option.isSome_none, Bool.and_false, Bool.false_or]
    | some src =>
      have hsrc : lookupKV store pk = some src := hp.symm
      by_cases hk : pk = k
      · rw [hk] at hsrc
        simp only [List.foldl_cons, List.any_cons, hk]
        rw [ih (setKV m k (f src)) k hrest]
        by_cases hany : rest.any (fun q => q.1 = k && q.2.isSome)
        · simp [hany, hsrc]
        · simp [hany, hsrc, lookupKV_setKV_self]
      · have hdk : (decide (pk = k)) = false := decide_eq_false hk
        simp only [List.foldl_cons, List.any_cons]
        rw [ih (setKV m pk (f src)) k hrest, lookupKV_setKV_ne _ _ _ _ hk]
        simp only [Option.isSome_some, Bool.and_true, hdk, Bool.false_or]

/-- The fold in the vector store's `get_by_ids` is a `filterMap`. -/
theorem vecFold_eq_filterMap (g : String → Doc → Doc) :
    ∀ (ps : List (String × Option Doc)) (acc : List Doc),
      ps.foldl (fun rs d =>
        match d.2 with
        | some src => rs ++ [g d.1 src]
        | none => rs) acc
      = acc ++ ps.filterMap (fun d => d.2.map (g d.1)) := by
  intro ps
  induction ps with
  | nil => intro acc; simp
  | cons p rest ih =>
    intro acc
    match hpv : p.2 with
    | none => simp [hpv, ih]
    | some src => simp [hpv, ih]

/-! ### C1 -/

/-- C1 (amended, proved form): for every index state and id list, the KV
store's `get_by_ids` returns exactly `ids.map (lookup …)` — the same length as
the input, in input order, with `none` at every position whose id is absent —
while the vector store's `get_by_ids` drops missing ids, returning only the
found documents (in input order, with the `id` field filled in). -/
theorem C1_get_by_ids_alignment (store : Store) (ids : List String) :
    (ElasticsearchKVStorage.get_by_ids (Except.ok store) ids).1
      = ids.map (fun id => (lookupKV store id).map esSetDefaultsCU)
    ∧ (ElasticsearchVectorStorage.get_by_ids (Except.ok store) ids).1
      = ids.filterMap (fun id =>
          (lookupKV store id).map (fun src => setKV src "id" (JVal.str id))) := by
  constructor
  · by_cases hids : ids.isEmpty
    · rw [List.isEmpty_iff] at hids
      subst hids
      simp [ElasticsearchKVStorage.get_by_ids]
    · unfold ElasticsearchKVStorage.get_by_ids
      simp only [hids, Bool.false_eq_true, if_false]
      refine List.map_congr_left (fun id hid => ?_)
      rw [lookupKV_docMapFold store esSetDefaultsCU _ _ id
        (by intro p hp; obtain ⟨x, hx, rfl⟩ := List.mem_map.mp hp; rfl)]
      match hsv : lookupKV store id with
      | some src =>
        have : (ids.map (fun i => (i, lookupKV store i))).any
            (fun p => p.1 = id && p.2.isSome) = true := by
          refine List.any_eq_true.mpr ⟨(id, lookupKV store id), List.mem_map.mpr ⟨id, hid, rfl⟩, ?_⟩
          simp [hsv]
        simp [this, hsv]
      | none =>
        have : (ids.map (fun i => (i, lookupKV store i))).any
            (fun p => p.1 = id && p.2.isSome) = false := by
          refine List.any_eq_false.mpr ?_
          intro p hp
          obtain ⟨x, _, rfl⟩ := List.mem_map.mp hp
          by_cases hx : x = id
          · subst hx; simp [hsv]
          · simp [hx]
        simp [this, hsv, lookupKV]
  · by_cases hids : ids.isEmpty
    · rw [List.isEmpty_iff] at hids
      subst hids
      simp [ElasticsearchVectorStorage.get_by_ids]
    · unfold ElasticsearchVectorStorage.get_by_ids
      simp only [hids, Bool.false_eq_true, if_false]
      rw [vecFold_eq_filterMap (fun id src => setKV src "id" (JVal.str id))]
      rw [List.filterMap_map]
      rfl

/-- C1 counterexample: the claim asserts the vector store, like the KV store,
returns a list of the input's length with `none` placeholders; but on an index
not containing the requested id the vector store's `get_by_ids` returns the
empty list, whose length differs from the one-element input. -/
theorem C1_counterexample :
    ¬ ((ElasticsearchVectorStorage.get_by_ids (Except.ok ([] : Store)) ["missing"]).1.length
        = ["missing"].length) := by
  decide

/-! ### C8 -/

namespace ElasticsearchVectorStorage

/-- The hybrid-search request body constructed by
`ElasticsearchVectorStorage.query` (lines 1041-1064). -/
structure KnnClause where
  field : String
  query_vector : List ℚ
  k : Nat
  num_candidates : Nat

/-- The lexical `match` clause on `content`. -/
structure MatchClause where
  field : String
  query : String
  boost : ℚ

/-- The reciprocal-rank-fusion clause. -/
structure RrfClause where
  window_size : Nat
  rank_constant : Nat

/-- The single combined search request issued by `query`. -/
structure QueryRequest where
  size : Nat
  knn : KnnClause
  query : MatchClause
  rank : RrfClause

/-- The request body exactly as built at lines 1041-1064. -/
def buildHybridRequest (queryText : String) (top_k : Nat)
    (query_embedding : List ℚ) : QueryRequest :=
  { size := top_k,
    knn := { field := "embedding", query_vector := query_embedding,
             k := top_k, num_candidates := top_k * 10 },
    query := { field := "content", query := queryText, boost := 1/2 },
    rank := { window_size := top_k * 2, rank_constant := 60 } }

/-- One returned hit as consumed at lines 1066-1071: id, source and score. -/
structure QueryResult where
  id : String
  score : ℚ
  source : Doc

/-- `ElasticsearchVectorStorage.query` (lines 1030-1077): builds the hybrid
request, issues it once via `respond`, and maps each returned hit to its
source with `id` and `score` attached; any backend error yields `[]`. -/
def query (respond : QueryRequest → Except String (List (String × Doc × ℚ)))
    (queryText : String) (top_k : Nat) (query_embedding : List ℚ) :
    List QueryResult × List QueryRequest :=
  let req := buildHybridRequest queryText top_k query_embedding
  match respond req with
  | .error _ => ([], [req])
  | .ok hits => (hits.map (fun h => { id := h.1, score := h.2.2, source := h.2.1 }), [req])

end ElasticsearchVectorStorage

/-- C8: every read operation converts a backend fault into its safe default
instead of propagating it: `filter_keys` returns the full input key set,
the KV `get_by_ids` returns a list of `none` placeholders of the input's
length, the vector `get_by_ids` returns the empty list, and `query` returns
the empty list. -/
theorem C8_safe_defaults_on_error (e : String) (keys : Finset String)
    (ids : List String) (queryText : String) (top_k : Nat)
    (query_embedding : List ℚ) :
    (ElasticsearchKVStorage.filter_keys (Except.error e) keys).1 = keys
    ∧ (ElasticsearchKVStorage.get_by_ids (Except.error e) ids).1
        = List.replicate ids.length none
    ∧ (ElasticsearchVectorStorage.get_by_ids (Except.error e) ids).1 = []
    ∧ (ElasticsearchVectorStorage.query (fun _ => Except.error e)
        queryText top_k query_embedding).1 = [] := by
  refine ⟨?_, ?_, ?_, ?_⟩
  · unfold ElasticsearchKVStorage.filter_keys
    by_cases hk : keys = ∅ <;> simp [hk]
  · unfold ElasticsearchKVStorage.get_by_ids
    by_cases hi : ids.isEmpty
    · rw [List.isEmpty_iff] at hi; subst hi; simp
    · simp [hi]
  · unfold ElasticsearchVectorStorage.get_by_ids
    by_cases hi : ids.isEmpty
    · rw [List.isEmpty_iff] at hi; subst hi; simp
    · simp [hi]
  · rfl


/-! ### Stable insertion sort, modelling Python `list.sort` -/

/-- Insert `a` after every existing element `b` with `le b a` (so the sort is
stable, as Python's `list.sort` is). -/
def insertLe (le : α → α → Bool) (a : α) : List α → List α
  | [] => [a]
  | b :: l => if le b a then b :: insertLe le a l else a :: b :: l

/-- Stable sort by the boolean preorder `le`; Python `list.sort`. -/
def isort (le : α → α → Bool) (l : List α) : List α :=
  l.foldl (fun acc a => insertLe le a acc) []

theorem mem_insertLe (le : α → α → Bool) (a x : α) (l : List α) :
    x ∈ insertLe le a l ↔ x = a ∨ x ∈ l := by
  induction l with
  | nil => simp [insertLe]
  | cons b t ih =>
    show x ∈ (if le b a then b :: insertLe le a t else a :: b :: t) ↔ _
    by_cases hb : le b a
    · rw [if_pos hb]
      simp only [List.mem_cons, ih]
      tauto
    · rw [if_neg hb]
      simp only [List.mem_cons]

theorem pairwise_insertLe (le : α → α → Bool)
    (htot : ∀ a b, le a b = true ∨ le b a = true)
    (htrans : ∀ a b c, le a b = true → le b c = true → le a c = true)
    (a : α) (l : List α) (h : l.Pairwise (fun x y => le x y = true)) :
    (insertLe le a l).Pairwise (fun x y => le x y = true) := by
  induction l with
  | nil => simp [insertLe]
  | cons b t ih =>
    rw [List.pairwise_cons] at h
    obtain ⟨hb, ht⟩ := h
    show ((if le b a then b :: insertLe le a t else a :: b :: t)).Pairwise _
    by_cases hba : le b a
    · rw [if_pos hba, List.pairwise_cons]
      refine ⟨fun y hy => ?_, ih ht⟩
      rcases (mem_insertLe le a y t).mp hy with rfl | hyt
      · exact hba
      · exact hb y hyt
    · have hab : le a b = true := by
        rcases htot a b with h' | h'
        · exact h'
        · exact absurd h' hba
      rw [if_neg hba, List.pairwise_cons]
      refine ⟨fun y hy => ?_, List.pairwise_cons.mpr ⟨hb, ht⟩⟩
      rcases List.mem_cons.mp hy with rfl | hyt
      · exact hab
      · exact htrans a b y hab (hb y hyt)

theorem pairwise_isort (le : α → α → Bool)
    (htot : ∀ a b, le a b = true ∨ le b a = true)
    (htrans : ∀ a b c, le a b = true → le b c = true → le a c = true)
    (l : List α) : (isort le l).Pairwise (fun x y => le x y = true) := by
  suffices h : ∀ (l : List α) (acc : List α),
      acc.Pairwise (fun x y => le x y = true) →
      (l.foldl (fun acc a => insertLe le a acc) acc).Pairwise
        (fun x y => le x y = true) from
    h l [] List.Pairwise.nil
  intro l
  induction l with
  | nil => intro acc hacc; simpa using hacc
  | cons a t ih =>
    intro acc hacc
    exact ih (insertLe le a acc) (pairwise_insertLe le htot htrans a acc hacc)

theorem mem_isort (le : α → α → Bool) (x : α) (l : List α) :
    x ∈ isort le l ↔ x ∈ l := by
  suffices h : ∀ (l acc : List α),
      (x ∈ l.foldl (fun acc a => insertLe le a acc) acc ↔ x ∈ acc ∨ x ∈ l) by
    rw [isort, h l []]
    simp
  intro l
  induction l with
  | nil => intro acc; simp
  | cons a t ih =>
    intro acc
    rw [List.foldl_cons, ih (insertLe le a acc), mem_insertLe]
    simp only [List.mem_cons]
    tauto

theorem length_insertLe (le : α → α → Bool) (a : α) (l : List α) :
    (insertLe le a l).length = l.length + 1 := by
  induction l with
  | nil => rfl
  | cons b t ih =>
    by_cases hb : le b a <;> simp [insertLe, hb, ih]

theorem length_isort (le : α → α → Bool) (l : List α) :
    (isort le l).length = l.length := by
  suffices h : ∀ (l acc : List α),
      (l.foldl (fun acc a => insertLe le a acc) acc).length
        = acc.length + l.length from by
    simpa using h l []
  intro l
  induction l with
  | nil => intro acc; simp
  | cons a t ih =>
    intro acc
    rw [List.foldl_cons, ih (insertLe le a acc), length_insertLe]
    simp only [List.length_cons]
    omega

/-! ### Reciprocal Rank Fusion semantics of the combined search request -/

namespace ElasticsearchVectorStorage

/-- RRF contribution of one ranked list: `1 / (rank + rank_constant)` with
1-based ranks, zero when the id is not in the list (spec glossary). -/
def rrfContribution (ranked : List String) (rank_constant : Nat) (id : String) : ℚ :=
  match ranked.indexOf? id with
  | some i => 1 / ((i : ℚ) + 1 + (rank_constant : ℚ))
  | none => 0

/-- Fused score of `id` under the request's RRF clause, given the two branch
rankings (vector branch and lexical branch), each truncated to the window. -/
def rrfScore (req : QueryRequest) (vecRank lexRank : List String) (id : String) : ℚ :=
  rrfContribution (vecRank.take req.rank.window_size) req.rank.rank_constant id
    + rrfContribution (lexRank.take req.rank.window_size) req.rank.rank_constant id

/-- Backend semantics of the combined request: every candidate within either
branch's window is scored by RRF, ranked by descending fused score, and the
top `size` hits are returned with their stored sources. -/
def esRrfHits (store : Store) (vecRank lexRank : List String)
    (req : QueryRequest) : List (String × Doc × ℚ) :=
  let window := req.rank.window_size
  let candidates := (vecRank.take window ++ lexRank.take window).dedup
  let scored := candidates.map (fun id =>
    (id, (lookupKV store id).getD [], rrfScore req vecRank lexRank id))
  (isort (fun a b => decide (b.2.2 ≤ a.2.2)) scored).take req.size

end ElasticsearchVectorStorage

/-- C7: for every query text, `top_k` and backend state, `query` issues exactly
one combined request whose body contains the approximate-nearest-neighbor
clause over `embedding` with `k = top_k`, the lexical `match` clause over
`content` with boost 0.5, and the RRF clause with window size `2 * top_k` and
rank constant 60; the result has at most `top_k` entries, each carrying the
record id and the RRF-fused score, in descending score order. -/
theorem C7_hybrid_query (store : Store) (vecRank lexRank : List String)
    (queryText : String) (top_k : Nat) (query_embedding : List ℚ) :
    (ElasticsearchVectorStorage.query
        (fun r => Except.ok (ElasticsearchVectorStorage.esRrfHits store vecRank lexRank r))
        queryText top_k query_embedding).2
      = [ElasticsearchVectorStorage.buildHybridRequest queryText top_k query_embedding]
    ∧ (ElasticsearchVectorStorage.buildHybridRequest queryText top_k query_embedding).size = top_k
    ∧ (ElasticsearchVectorStorage.buildHybridRequest queryText top_k query_embedding).knn.field
        = "embedding"
    ∧ (ElasticsearchVectorStorage.buildHybridRequest queryText top_k query_embedding).knn.query_vector
        = query_embedding
    ∧ (ElasticsearchVectorStorage.buildHybridRequest queryText top_k query_embedding).knn.k = top_k
    ∧ (ElasticsearchVectorStorage.buildHybridRequest queryText top_k query_embedding).query.field
        = "content"
    ∧ (ElasticsearchVectorStorage.buildHybridRequest queryText top_k query_embedding).query.query
        = queryText
    ∧ (ElasticsearchVectorStorage.buildHybridRequest queryText top_k query_embedding).query.boost
        = 1/2
    ∧ (ElasticsearchVectorStorage.buildHybridRequest queryText top_k query_embedding).rank.window_size
        = 2 * top_k
    ∧ (ElasticsearchVectorStorage.buildHybridRequest queryText top_k query_embedding).rank.rank_constant
        = 60
    ∧ (ElasticsearchVectorStorage.query
        (fun r => Except.ok (ElasticsearchVectorStorage.esRrfHits store vecRank lexRank r))
        queryText top_k query_embedding).1.length ≤ top_k
    ∧ (ElasticsearchVectorStorage.query
        (fun r => Except.ok (ElasticsearchVectorStorage.esRrfHits store vecRank lexRank r))
        queryText top_k query_embedding).1.Pairwise (fun a b => b.score ≤ a.score)
    ∧ ∀ r ∈ (ElasticsearchVectorStorage.query
        (fun r => Except.ok (ElasticsearchVectorStorage.esRrfHits store vecRank lexRank r))
        queryText top_k query_embedding).1,
        r.score = ElasticsearchVectorStorage.rrfScore
          (ElasticsearchVectorStorage.buildHybridRequest queryText top_k query_embedding)
          vecRank lexRank r.id := by
  have hq1 : (ElasticsearchVectorStorage.query
      (fun r => Except.ok (ElasticsearchVectorStorage.esRrfHits store vecRank lexRank r))
      queryText top_k query_embedding).1
    = (ElasticsearchVectorStorage.esRrfHits store vecRank lexRank
        (ElasticsearchVectorStorage.buildHybridRequest queryText top_k query_embedding)).map
        (fun h => { id := h.1, score := h.2.2, source := h.2.1 }) := rfl
  refine ⟨rfl, rfl, rfl, rfl, rfl, rfl, rfl, rfl, Nat.mul_comm top_k 2, rfl, ?_, ?_, ?_⟩
  · rw [hq1, List.length_map]
    unfold ElasticsearchVectorStorage.esRrfHits
    exact List.length_take_le _ _
  · rw [hq1, List.pairwise_map]
    refine List.Pairwise.sublist (List.take_sublist _ _) ?_
    have h := pairwise_isort (fun a b : String × Doc × ℚ => decide (b.2.2 ≤ a.2.2))
      (fun a b => by
        rcases le_total b.2.2 a.2.2 with h' | h'
        · exact Or.inl (decide_eq_true h')
        · exact Or.inr (decide_eq_true h'))
      (fun a b c hab hbc => decide_eq_true
        (le_trans (of_decide_eq_true hbc) (of_decide_eq_true hab)))
      (((vecRank.take (ElasticsearchVectorStorage.buildHybridRequest queryText top_k
          query_embedding).rank.window_size ++
        lexRank.take (ElasticsearchVectorStorage.buildHybridRequest queryText top_k
          query_embedding).rank.window_size).dedup).map (fun id =>
        (id, (lookupKV store id).getD [],
          ElasticsearchVectorStorage.rrfScore
            (ElasticsearchVectorStorage.buildHybridRequest queryText top_k query_embedding)
            vecRank lexRank id)))
    exact h.imp (fun hxy => of_decide_eq_true hxy)
  · rw [hq1]
    intro r hr
    rw [List.mem_map] at hr
    obtain ⟨h, hh, rfl⟩ := hr
    have hmem : h ∈ isort (fun a b : String × Doc × ℚ => decide (b.2.2 ≤ a.2.2))
        (((vecRank.take (ElasticsearchVectorStorage.buildHybridRequest queryText top_k
            query_embedding).rank.window_size ++
          lexRank.take (ElasticsearchVectorStorage.buildHybridRequest queryText top_k
            query_embedding).rank.window_size).dedup).map (fun id =>
          (id, (lookupKV store id).getD [],
            ElasticsearchVectorStorage.rrfScore
              (ElasticsearchVectorStorage.buildHybridRequest queryText top_k query_embedding)
              vecRank lexRank id))) := List.mem_of_mem_take hh
    rw [mem_isort, List.mem_map] at hmem
    obtain ⟨id, _, rfl⟩ := hmem
    rfl

/-! ### C3: upsert timestamp handling -/

theorem containsKV_setKV_ne (l : List (String × α)) (k k' : String) (v : α)
    (h : k' ≠ k) : containsKV (setKV l k' v) k = containsKV l k := by
  unfold containsKV
  rw [lookupKV_setKV_ne _ _ _ _ h]

theorem mem_keys_setKV (l : List (String × α)) (k x : String) (v : α) :
    x ∈ (setKV l k v).map Prod.fst ↔ x = k ∨ x ∈ l.map Prod.fst := by
  induction l with
  | nil => simp [setKV]
  | cons hd t ih =>
    obtain ⟨k0, v0⟩ := hd
    by_cases hk : k0 = k
    · subst hk
      simp [setKV]
    · simp only [setKV, hk, if_false, List.map_cons, List.mem_cons, ih]
      tauto

theorem keysNodup_setKV (l : List (String × α)) (k : String) (v : α)
    (h : (l.map Prod.fst).Nodup) : ((setKV l k v).map Prod.fst).Nodup := by
  induction l with
  | nil => simp [setKV]
  | cons hd t ih =>
    obtain ⟨k0, v0⟩ := hd
    rw [List.map_cons, List.nodup_cons] at h
    obtain ⟨h0, ht⟩ := h
    by_cases hk : k0 = k
    · subst hk
      rw [setKV, if_pos rfl, List.map_cons, List.nodup_cons]
      exact ⟨h0, ht⟩
    · rw [setKV, if_neg hk, List.map_cons, List.nodup_cons]
      refine ⟨fun hmem => ?_, ih ht⟩
      rcases (mem_keys_setKV t k k0 v).mp hmem with rfl | h'
      · exact hk rfl
      · exact h0 h'

theorem countP_setKV_eq_one (l : List (String × α)) (k : String) (v : α)
    (h : (l.map Prod.fst).Nodup) :
    List.countP (fun e => e.1 = k) (setKV l k v) = 1 := by
  induction l with
  | nil => simp [setKV]
  | cons hd t ih =>
    obtain ⟨k0, v0⟩ := hd
    rw [List.map_cons, List.nodup_cons] at h
    obtain ⟨h0, ht⟩ := h
    by_cases hk : k0 = k
    · subst hk
      rw [setKV, if_pos rfl, List.countP_cons]
      have : List.countP (fun e => e.1 = k0) t = 0 := by
        rw [List.countP_eq_zero]
        intro a ha hak
        exact h0 (List.mem_map.mpr ⟨a, ha, of_decide_eq_true hak⟩)
      simp [this]
    · rw [setKV, if_neg hk, List.countP_cons, ih ht]
      simp [hk]

theorem lookupKV_foldl_setKV_not_mem (acts : List (String × α)) (store : List (String × α))
    (k : String) (h : k ∉ acts.map Prod.fst) :
    lookupKV (acts.foldl (fun s a => setKV s a.1 a.2) store) k = lookupKV store k := by
  induction acts generalizing store with
  | nil => rfl
  | cons a t ih =>
    rw [List.map_cons, List.mem_cons] at h
    push_neg at h
    rw [List.foldl_cons, ih _ h.2, lookupKV_setKV_ne _ _ _ _ (fun he => h.1 he.symm)]

theorem lookupKV_foldl_setKV_mem (acts : List (String × α)) :
    ∀ (store : List (String × α)) (k : String) (d : α),
      (k, d) ∈ acts → (acts.map Prod.fst).Nodup →
      lookupKV (acts.foldl (fun s a => setKV s a.1 a.2) store) k = some d := by
  induction acts with
  | nil => intro store k d hmem _; cases hmem
  | cons a t ih =>
    intro store k d hmem hnd
    rw [List.map_cons, List.nodup_cons] at hnd
    obtain ⟨h0, ht⟩ := hnd
    rcases List.mem_cons.mp hmem with heq | hmem'
    · subst heq
      rw [List.foldl_cons,
        lookupKV_foldl_setKV_not_mem t _ k (by simpa using h0),
        lookupKV_setKV_self]
    · rw [List.foldl_cons]
      exact ih _ k d hmem' ht

theorem lookupKV_createDefault_other (d : Doc) (now : Int) (k : String)
    (hk : ("create_time" : String) ≠ k) :
    lookupKV (if containsKV d "create_time" then d
              else setKV d "create_time" (JVal.num now)) k
      = lookupKV d k := by
  by_cases hc : containsKV d "create_time"
  · rw [if_pos hc]
  · rw [if_neg hc, lookupKV_setKV_ne _ _ _ _ hk]

theorem lookupKV_createDefault_self (d : Doc) (now : Int) :
    lookupKV (if containsKV d "create_time" then d
              else setKV d "create_time" (JVal.num now)) "create_time"
      = (if containsKV d "create_time" then lookupKV d "create_time"
         else some (JVal.num now)) := by
  by_cases hc : containsKV d "create_time"
  · rw [if_pos hc, if_pos hc]
  · rw [if_neg hc, if_neg hc, lookupKV_setKV_self]

theorem ElasticsearchKVStorage.upsertDoc_update_time (ns : String) (now : Int) (v : Doc) :
    lookupKV (ElasticsearchKVStorage.upsertDoc ns now v) "update_time" = some (JVal.num now) :=
  (lookupKV_createDefault_other
      (setKV (if pyEndsWith ns "text_chunks" && !(containsKV v "llm_cache_list")
        then setKV v "llm_cache_list" (JVal.arr []) else v) "update_time" (JVal.num now))
      now "update_time" (by decide)).trans
    (lookupKV_setKV_self _ _ _)

theorem ElasticsearchKVStorage.upsertDoc_create_time (ns : String) (now : Int) (v : Doc) :
    lookupKV (ElasticsearchKVStorage.upsertDoc ns now v) "create_time"
      = (if containsKV v "create_time" then lookupKV v "create_time"
         else some (JVal.num now)) := by
  have hv' : containsKV (if pyEndsWith ns "text_chunks" && !(containsKV v "llm_cache_list")
      then setKV v "llm_cache_list" (JVal.arr []) else v) "create_time"
      = containsKV v "create_time" := by
    by_cases hl : pyEndsWith ns "text_chunks" && !(containsKV v "llm_cache_list")
    · rw [if_pos hl, containsKV_setKV_ne _ _ _ _ (by decide)]
    · rw [if_neg hl]
  have hlook : lookupKV (if pyEndsWith ns "text_chunks" && !(containsKV v "llm_cache_list")
      then setKV v "llm_cache_list" (JVal.arr []) else v) "create_time"
      = lookupKV v "create_time" := by
    by_cases hl : pyEndsWith ns "text_chunks" && !(containsKV v "llm_cache_list")
    · rw [if_pos hl, lookupKV_setKV_ne _ _ _ _ (by decide)]
    · rw [if_neg hl]
  have h := lookupKV_createDefault_self
    (setKV (if pyEndsWith ns "text_chunks" && !(containsKV v "llm_cache_list")
      then setKV v "llm_cache_list" (JVal.arr []) else v) "update_time" (JVal.num now)) now
  refine h.trans ?_
  rw [containsKV_setKV_ne _ _ _ _ (by decide : ("update_time" : String) ≠ "create_time"), hv',
    lookupKV_setKV_ne _ _ _ _ (by decide : ("update_time" : String) ≠ "create_time"), hlook]

/-- C3: for every upsert payload on the key-value store, every written record
gets `update_time` set to now, and gets `create_time` set to now exactly when
the payload omits it; when the caller resupplies `create_time` the stored value
equals the supplied one, and upserting the same id twice leaves exactly one
stored record whose `create_time` is unchanged. -/
theorem C3_upsert_timestamps (ns : String) (store : Store)
    (data : List (String × Doc)) (now t1 t2 : Int) (k : String) (v : Doc)
    (hmem : (k, v) ∈ data) (hdata : (data.map Prod.fst).Nodup)
    (hstore : (store.map Prod.fst).Nodup) :
    lookupKV (ElasticsearchKVStorage.upsert ns store data now).1 k
      = some (ElasticsearchKVStorage.upsertDoc ns now v)
    ∧ lookupKV (ElasticsearchKVStorage.upsertDoc ns now v) "update_time" = some (JVal.num now)
    ∧ lookupKV (ElasticsearchKVStorage.upsertDoc ns now v) "create_time"
        = (if containsKV v "create_time" then lookupKV v "create_time"
           else some (JVal.num now))
    ∧ List.countP (fun e => e.1 = k)
        (ElasticsearchKVStorage.upsert ns
          (ElasticsearchKVStorage.upsert ns store [(k, v)] t1).1 [(k, v)] t2).1 = 1
    ∧ (containsKV v "create_time" = true →
        (lookupKV (ElasticsearchKVStorage.upsert ns
            (ElasticsearchKVStorage.upsert ns store [(k, v)] t1).1 [(k, v)] t2).1 k).bind
          (fun d => lookupKV d "create_time") = lookupKV v "create_time"
        ∧ (lookupKV (ElasticsearchKVStorage.upsert ns store [(k, v)] t1).1 k).bind
          (fun d => lookupKV d "create_time") = lookupKV v "create_time") := by
  have hstep : ∀ (s : Store) (t : Int),
      (ElasticsearchKVStorage.upsert ns s [(k, v)] t).1 = setKV s k (ElasticsearchKVStorage.upsertDoc ns t v) := by
    intro s t
    rfl
  refine ⟨?_, ElasticsearchKVStorage.upsertDoc_update_time ns now v, ElasticsearchKVStorage.upsertDoc_create_time ns now v, ?_, ?_⟩
  · have hne : ¬data.isEmpty := by
      cases data with
      | nil => cases hmem
      | cons a t => simp
    unfold ElasticsearchKVStorage.upsert
    simp only [hne, Bool.false_eq_true, if_false]
    refine lookupKV_foldl_setKV_mem _ _ _ _ ?_ ?_
    · exact List.mem_map.mpr ⟨(k, v), hmem, rfl⟩
    · have : (data.map (fun kv => (kv.1, ElasticsearchKVStorage.upsertDoc ns now kv.2))).map Prod.fst
          = data.map Prod.fst := by
        rw [List.map_map]
        rfl
      rw [this]
      exact hdata
  · rw [hstep, hstep]
    exact countP_setKV_eq_one _ _ _ (keysNodup_setKV _ _ _ hstore)
  · intro hc
    rw [hstep, hstep, lookupKV_setKV_self, lookupKV_setKV_self]
    constructor
    · show lookupKV (ElasticsearchKVStorage.upsertDoc ns t2 v) "create_time" = lookupKV v "create_time"
      rw [ElasticsearchKVStorage.upsertDoc_create_time, if_pos hc]
    · show lookupKV (ElasticsearchKVStorage.upsertDoc ns t1 v) "create_time" = lookupKV v "create_time"
      rw [ElasticsearchKVStorage.upsertDoc_create_time, if_pos hc]

/-- C3 witness: concrete evaluation of the upsert theorem on a payload that
resupplies `create_time`, and on one that omits it. -/
theorem C3_upsert_timestamps_witness :
    lookupKV (ElasticsearchKVStorage.upsert "chunks"
        ([] : Store) [("a", [("create_time", JVal.num 5)])] 9).1 "a"
      = some (ElasticsearchKVStorage.upsertDoc "chunks" 9 [("create_time", JVal.num 5)])
    ∧ lookupKV (ElasticsearchKVStorage.upsertDoc "chunks" 9 [("create_time", JVal.num 5)]) "update_time"
      = some (JVal.num 9)
    ∧ lookupKV (ElasticsearchKVStorage.upsertDoc "chunks" 9 [("create_time", JVal.num 5)]) "create_time"
      = (if containsKV [("create_time", JVal.num 5)] "create_time"
         then lookupKV [("create_time", JVal.num 5)] "create_time"
         else some (JVal.num 9))
    ∧ List.countP (fun e => e.1 = "a")
        (ElasticsearchKVStorage.upsert "chunks"
          (ElasticsearchKVStorage.upsert "chunks" ([] : Store)
            [("a", [("create_time", JVal.num 5)])] 1).1
          [("a", [("create_time", JVal.num 5)])] 2).1 = 1
    ∧ (containsKV [("create_time", JVal.num 5)] "create_time" = true →
        (lookupKV (ElasticsearchKVStorage.upsert "chunks"
            (ElasticsearchKVStorage.upsert "chunks" ([] : Store)
              [("a", [("create_time", JVal.num 5)])] 1).1
            [("a", [("create_time", JVal.num 5)])] 2).1 "a").bind
          (fun d => lookupKV d "create_time")
          = lookupKV [("create_time", JVal.num 5)] "create_time"
        ∧ (lookupKV (ElasticsearchKVStorage.upsert "chunks" ([] : Store)
            [("a", [("create_time", JVal.num 5)])] 1).1 "a").bind
          (fun d => lookupKV d "create_time")
          = lookupKV [("create_time", JVal.num 5)] "create_time") :=
  C3_upsert_timestamps "chunks" [] [("a", [("create_time", JVal.num 5)])] 9 1 2
    "a" [("create_time", JVal.num 5)]
    (List.mem_singleton.mpr rfl) (by simp) (by simp)

/-! ### C4: scroll-cursor release -/

/-- One scroll response page: the `hits` list, each hit an `(_id, _source)`. -/
abbrev ScrollPage := List (String × Doc)

namespace ElasticsearchKVStorage

/-- The `while hits:` loop of `ElasticsearchKVStorage.get_all` (lines 350-365).
`pages` are the successive response pages (`pages[0]` from the initial search,
`pages[n]` from the n-th scroll call); a missing page is an empty response.
`failAt = some n` means backend call number `n` raises.  Each iteration folds
the current page into the accumulated result dict, then issues the next scroll
call.  On the normal exit (empty hits) `clear_scroll` runs; the `except`
branch (lines 367-368) only logs, so the flag is `false` there. -/
def get_all_loop : List ScrollPage → Nat → Option Nat → Store → Store × Bool
  | [], _, _, acc => (acc, true)
  | page :: rest, n, failAt, acc =>
    if page.isEmpty then (acc, true)
    else
      let acc := page.foldl (fun r h => setKV r h.1 (esSetDefaultsCU h.2)) acc
      if failAt = some (n + 1) then (acc, false)
      else get_all_loop rest (n + 1) failAt acc

/-- `ElasticsearchKVStorage.get_all` (lines 334-370): initial search is call 0;
returns the accumulated mapping and whether `clear_scroll` was invoked. -/
def get_all (pages : List ScrollPage) (failAt : Option Nat) : Store × Bool :=
  if failAt = some 0 then ([], false)
  else get_all_loop pages 0 failAt []

end ElasticsearchKVStorage

namespace ElasticsearchDocStatusStorage

/-- The loop of `ElasticsearchDocStatusStorage._scroll_hits` (lines 593-608):
same paging structure, but the `except` branch (lines 610-614) re-issues
`clear_scroll` under `contextlib.suppress`, so the cursor is released on the
error path as well. -/
def scroll_hits_loop : List ScrollPage → Nat → Option Nat → List (String × Doc) →
    List (String × Doc) × Bool
  | [], _, _, acc => (acc, true)
  | page :: rest, n, failAt, acc =>
    if page.isEmpty then (acc, true)
    else
      let acc := acc ++ page
      if failAt = some (n + 1) then (acc, true)
      else scroll_hits_loop rest (n + 1) failAt acc

/-- `ElasticsearchDocStatusStorage._scroll_hits` (lines 576-616).  If the
initial search (call 0) raises, no cursor was opened and `scroll_id` is still
`None`, so nothing is (or needs to be) released. -/
def scroll_hits (pages : List ScrollPage) (failAt : Option Nat) :
    List (String × Doc) × Bool :=
  if failAt = some 0 then ([], false)
  else scroll_hits_loop pages 0 failAt []

end ElasticsearchDocStatusStorage

/-- C4 (code bug): when a backend error occurs on the first scroll call of a
scan that already opened a cursor, `ElasticsearchKVStorage.get_all` exits
through its `except` branch without calling `clear_scroll` — the cursor opened
by the initial search is leaked — whereas the doc-status `_scroll_hits`
releases the cursor on the same error path, as the specification requires of
both. -/
theorem C4_get_all_leaks_scroll_on_error :
    (ElasticsearchKVStorage.get_all [[("a", [])], [("b", [])]] (some 1)).2 = false
    ∧ (ElasticsearchDocStatusStorage.scroll_hits [[("a", [])], [("b", [])]] (some 1)).2 = true
    ∧ (ElasticsearchKVStorage.get_all [[("a", [])], [("b", [])]] none).2 = true := by
  refine ⟨rfl, rfl, rfl⟩

/-! ### C6: legacy error-field migration -/

namespace ElasticsearchDocStatusStorage

/-- Python `v is None` on a stored field value. -/
def isNull : JVal → Bool
  | JVal.null => true
  | _ => false

/-- Python `v in (None, "")` on a stored field value. -/
def isNullOrEmptyStr : JVal → Bool
  | JVal.null => true
  | JVal.str s => s.data.isEmpty
  | _ => false

/-- Python truthiness of a field value (`not data.get(k)` checks). -/
def jfalsy : JVal → Bool
  | JVal.null => true
  | JVal.str s => s.data.isEmpty
  | JVal.num n => n == 0
  | JVal.arr xs => xs.isEmpty
  | JVal.obj fs => fs.isEmpty

/-- Whether `data.get(k)` is falsy (absent key or falsy value). -/
def getFalsy (d : Doc) (k : String) : Bool :=
  match lookupKV d k with
  | none => true
  | some v => jfalsy v

/-- Whether `data[k] is None` (present with a `null` value). -/
def getIsNull (d : Doc) (k : String) : Bool :=
  match lookupKV d k with
  | none => false
  | some v => isNull v

/-- Whether `data[k] in (None, "")`. -/
def getIsNullOrEmptyStr (d : Doc) (k : String) : Bool :=
  match lookupKV d k with
  | none => false
  | some v => isNullOrEmptyStr v

/-- `_normalize_doc_status_input` (lines 524-562), dict branch, with the
current ISO timestamp passed in as `now_iso`.  (The `DocProcessingStatus`
branch and `DocStatus` enum coercion concern in-memory types only; statuses
are already plain values here.) -/
def normalize_doc_status_input (now_iso : String) (value : Doc) : Doc :=
  let data := eraseKV value "content"
  let data := if !(containsKV data "chunks_list") || getIsNull data "chunks_list"
    then setKV data "chunks_list" (JVal.arr []) else data
  let data := if !(containsKV data "metadata") || getIsNull data "metadata"
    then setKV data "metadata" (JVal.obj []) else data
  let data := if !(containsKV data "error_msg")
    then setKV data "error_msg" JVal.null else data
  let data := if !(containsKV data "content_summary")
    then setKV data "content_summary" (JVal.str "") else data
  let data := if !(containsKV data "content_length")
    then setKV data "content_length" (JVal.num 0) else data
  let data := if getFalsy data "file_path"
    then setKV data "file_path" (JVal.str "no-file-path") else data
  let data := if getFalsy data "created_at"
    then setKV data "created_at" (JVal.str now_iso) else data
  let data := if getFalsy data "updated_at"
    then setKV data "updated_at" ((lookupKV data "created_at").getD JVal.null) else data
  data

/-- The straight-line prefix of `_prepare_doc_status_data` (lines 484-513):
read-path defaults and removal of internal helper fields, before the legacy
`error` migration. -/
def prepare_defaults (now_iso : String) (doc : Doc) : Doc :=
  let data := eraseKV doc "_id"
  let data := if !(containsKV data "file_path")
    then setKV data "file_path" (JVal.str "no-file-path") else data
  let data := if !(containsKV data "metadata")
    then setKV data "metadata" (JVal.obj []) else data
  let data := if !(containsKV data "error_msg")
    then setKV data "error_msg" JVal.null else data
  let data := if !(containsKV data "chunks_list") || getIsNull data "chunks_list"
    then setKV data "chunks_list" (JVal.arr []) else data
  let data := if !(containsKV data "content_summary")
    then setKV data "content_summary" (JVal.str "") else data
  let data := if !(containsKV data "content_length")
    then setKV data "content_length" (JVal.num 0) else data
  let data := if !(containsKV data "created_at")
    then setKV data "created_at" (JVal.str now_iso) else data
  let data := if !(containsKV data "updated_at")
    then setKV data "updated_at" ((lookupKV data "created_at").getD JVal.null) else data
  let data := eraseKV data "create_time"
  let data := eraseKV data "update_time"
  let data := eraseKV data "messages"
  let data := eraseKV data "return_message"
  data

/-- `_prepare_doc_status_data` (lines 484-522): the defaults above followed by
the backward-compatibility migration of the legacy `error` field (lines
515-520): move it into `error_msg` unless a non-falsy `error_msg` exists. -/
def prepare_doc_status_data (now_iso : String) (doc : Doc) : Doc :=
  let data := prepare_defaults now_iso doc
  if containsKV data "error" then
    if !(containsKV data "error_msg") || getIsNullOrEmptyStr data "error_msg" then
      let ev := (lookupKV data "error").getD JVal.null
      setKV (eraseKV data "error") "error_msg" ev
    else
      eraseKV data "error"
  else data

end ElasticsearchDocStatusStorage

/-! ### Key-threading lemmas for the doc-status pipelines -/

theorem lookupKV_eraseKV_ne (l : List (String × α)) (k k' : String)
    (h : k' ≠ k) : lookupKV (eraseKV l k') k = lookupKV l k := by
  induction l with
  | nil => rfl
  | cons hd t ih =>
    obtain ⟨k0, v0⟩ := hd
    by_cases hk : k0 = k'
    · subst hk
      rw [eraseKV, if_pos rfl, ih, lookupKV, if_neg h]
    · rw [eraseKV, if_neg hk, lookupKV, lookupKV]
      by_cases hk0 : k0 = k
      · rw [if_pos hk0, if_pos hk0]
      · rw [if_neg hk0, if_neg hk0, ih]

theorem lookupKV_eraseKV_self (l : List (String × α)) (k : String) :
    lookupKV (eraseKV l k) k = none := by
  induction l with
  | nil => rfl
  | cons hd t ih =>
    obtain ⟨k0, v0⟩ := hd
    by_cases hk : k0 = k
    · rw [eraseKV, if_pos hk, ih]
    · rw [eraseKV, if_neg hk, lookupKV, if_neg hk, ih]

theorem lookupKV_ite_setKV_ne (d : Doc) (c : Bool) (k' : String) (v : JVal)
    (k : String) (h : k' ≠ k) :
    lookupKV (if c then setKV d k' v else d) k = lookupKV d k := by
  cases c
  · rfl
  · exact lookupKV_setKV_ne d k k' v h

theorem lookupKV_setIfAbsent_self (d : Doc) (k : String) (v : JVal) :
    lookupKV (if !(containsKV d k) then setKV d k v else d) k
      = some ((lookupKV d k).getD v) := by
  cases hl : lookupKV d k with
  | none => simp [containsKV, hl, lookupKV_setKV_self]
  | some w => simp [containsKV, hl]

namespace ElasticsearchDocStatusStorage

theorem normalize_lookup_error (now_iso : String) (d : Doc) :
    lookupKV (normalize_doc_status_input now_iso d) "error" = lookupKV d "error" := by
  simp only [normalize_doc_status_input]
  rw [lookupKV_ite_setKV_ne _ _ "updated_at" _ "error" (by decide),
    lookupKV_ite_setKV_ne _ _ "created_at" _ "error" (by decide),
    lookupKV_ite_setKV_ne _ _ "file_path" _ "error" (by decide),
    lookupKV_ite_setKV_ne _ _ "content_length" _ "error" (by decide),
    lookupKV_ite_setKV_ne _ _ "content_summary" _ "error" (by decide),
    lookupKV_ite_setKV_ne _ _ "error_msg" _ "error" (by decide),
    lookupKV_ite_setKV_ne _ _ "metadata" _ "error" (by decide),
    lookupKV_ite_setKV_ne _ _ "chunks_list" _ "error" (by decide),
    lookupKV_eraseKV_ne _ "error" "content" (by decide)]

theorem normalize_lookup_error_msg (now_iso : String) (d : Doc) :
    lookupKV (normalize_doc_status_input now_iso d) "error_msg"
      = some ((lookupKV d "error_msg").getD JVal.null) := by
  simp only [normalize_doc_status_input]
  rw [lookupKV_ite_setKV_ne _ _ "updated_at" _ "error_msg" (by decide),
    lookupKV_ite_setKV_ne _ _ "created_at" _ "error_msg" (by decide),
    lookupKV_ite_setKV_ne _ _ "file_path" _ "error_msg" (by decide),
    lookupKV_ite_setKV_ne _ _ "content_length" _ "error_msg" (by decide),
    lookupKV_ite_setKV_ne _ _ "content_summary" _ "error_msg" (by decide),
    lookupKV_setIfAbsent_self _ "error_msg" JVal.null,
    lookupKV_ite_setKV_ne _ _ "metadata" _ "error_msg" (by decide),
    lookupKV_ite_setKV_ne _ _ "chunks_list" _ "error_msg" (by decide),
    lookupKV_eraseKV_ne _ "error_msg" "content" (by decide)]

theorem prepare_defaults_lookup_error (now_iso : String) (s : Doc) :
    lookupKV (prepare_defaults now_iso s) "error" = lookupKV s "error" := by
  simp only [prepare_defaults]
  rw [lookupKV_eraseKV_ne _ "error" "return_message" (by decide),
    lookupKV_eraseKV_ne _ "error" "messages" (by decide),
    lookupKV_eraseKV_ne _ "error" "update_time" (by decide),
    lookupKV_eraseKV_ne _ "error" "create_time" (by decide),
    lookupKV_ite_setKV_ne _ _ "updated_at" _ "error" (by decide),
    lookupKV_ite_setKV_ne _ _ "created_at" _ "error" (by decide),
    lookupKV_ite_setKV_ne _ _ "content_length" _ "error" (by decide),
    lookupKV_ite_setKV_ne _ _ "content_summary" _ "error" (by decide),
    lookupKV_ite_setKV_ne _ _ "chunks_list" _ "error" (by decide),
    lookupKV_ite_setKV_ne _ _ "error_msg" _ "error" (by decide),
    lookupKV_ite_setKV_ne _ _ "metadata" _ "error" (by decide),
    lookupKV_ite_setKV_ne _ _ "file_path" _ "error" (by decide),
    lookupKV_eraseKV_ne _ "error" "_id" (by decide)]

theorem prepare_defaults_lookup_error_msg (now_iso : String) (s : Doc) :
    lookupKV (prepare_defaults now_iso s) "error_msg"
      = some ((lookupKV s "error_msg").getD JVal.null) := by
  simp only [prepare_defaults]
  rw [lookupKV_eraseKV_ne _ "error_msg" "return_message" (by decide),
    lookupKV_eraseKV_ne _ "error_msg" "messages" (by decide),
    lookupKV_eraseKV_ne _ "error_msg" "update_time" (by decide),
    lookupKV_eraseKV_ne _ "error_msg" "create_time" (by decide),
    lookupKV_ite_setKV_ne _ _ "updated_at" _ "error_msg" (by decide),
    lookupKV_ite_setKV_ne _ _ "created_at" _ "error_msg" (by decide),
    lookupKV_ite_setKV_ne _ _ "content_length" _ "error_msg" (by decide),
    lookupKV_ite_setKV_ne _ _ "content_summary" _ "error_msg" (by decide),
    lookupKV_ite_setKV_ne _ _ "chunks_list" _ "error_msg" (by decide),
    lookupKV_setIfAbsent_self _ "error_msg" JVal.null,
    lookupKV_ite_setKV_ne _ _ "metadata" _ "error_msg" (by decide),
    lookupKV_ite_setKV_ne _ _ "file_path" _ "error_msg" (by decide),
    lookupKV_eraseKV_ne _ "error_msg" "_id" (by decide)]

/-- Behavior of `_prepare_doc_status_data` on a stored doc carrying a legacy
`error` field: the migration pops `error` and fills `error_msg` with it unless
a non-falsy `error_msg` is present. -/
theorem prepare_error_migration (now_iso : String) (s : Doc) (ev : JVal)
    (hs : lookupKV s "error" = some ev) :
    lookupKV (prepare_doc_status_data now_iso s) "error" = none
    ∧ lookupKV (prepare_doc_status_data now_iso s) "error_msg"
        = (if isNullOrEmptyStr ((lookupKV s "error_msg").getD JVal.null)
           then some ev else lookupKV s "error_msg") := by
  have h1 : lookupKV (prepare_defaults now_iso s) "error" = some ev := by
    rw [prepare_defaults_lookup_error, hs]
  have h2 := prepare_defaults_lookup_error_msg now_iso s
  have hc : containsKV (prepare_defaults now_iso s) "error" = true := by
    rw [containsKV, h1]
    rfl
  have hcm : containsKV (prepare_defaults now_iso s) "error_msg" = true := by
    rw [containsKV, h2]
    rfl
  have hgm : getIsNullOrEmptyStr (prepare_defaults now_iso s) "error_msg"
      = isNullOrEmptyStr ((lookupKV s "error_msg").getD JVal.null) := by
    rw [getIsNullOrEmptyStr, h2]
  simp only [prepare_doc_status_data]
  rw [if_pos hc, hcm]
  simp only [Bool.not_true, Bool.false_or]
  rw [hgm]
  by_cases hm : isNullOrEmptyStr ((lookupKV s "error_msg").getD JVal.null)
  · rw [if_pos hm, if_pos hm]
    constructor
    · rw [lookupKV_setKV_ne _ _ _ _ (by decide : ("error_msg" : String) ≠ "error"),
        lookupKV_eraseKV_self]
    · rw [lookupKV_setKV_self, h1]
      rfl
  · rw [if_neg hm, if_neg hm]
    constructor
    · exact lookupKV_eraseKV_self _ _
    · rw [lookupKV_eraseKV_ne _ "error_msg" "error" (by decide), h2]
      cases hse : lookupKV s "error_msg" with
      | none =>
        exfalso
        rw [hse] at hm
        exact hm rfl
      | some v => rfl

end ElasticsearchDocStatusStorage

/-- C6: a doc-status record written (via input normalization) with a legacy
`error` field and no non-falsy `error_msg` reads back (via
`_prepare_doc_status_data`) with that value under `error_msg` and no `error`
field; a record written with a non-empty `error_msg` keeps it, the migration
dropping `error` without overwriting. -/
theorem C6_legacy_error_migration (nowW nowR : String) (d : Doc) :
    (∀ ev : JVal, lookupKV d "error" = some ev →
      ElasticsearchDocStatusStorage.isNullOrEmptyStr ((lookupKV d "error_msg").getD JVal.null) = true →
      lookupKV (ElasticsearchDocStatusStorage.prepare_doc_status_data nowR
          (ElasticsearchDocStatusStorage.normalize_doc_status_input nowW d)) "error_msg"
        = some ev
      ∧ lookupKV (ElasticsearchDocStatusStorage.prepare_doc_status_data nowR
          (ElasticsearchDocStatusStorage.normalize_doc_status_input nowW d)) "error"
        = none)
    ∧ (∀ (ev v : JVal), lookupKV d "error" = some ev →
        lookupKV d "error_msg" = some v → ElasticsearchDocStatusStorage.isNullOrEmptyStr v = false →
        lookupKV (ElasticsearchDocStatusStorage.prepare_doc_status_data nowR
            (ElasticsearchDocStatusStorage.normalize_doc_status_input nowW d)) "error_msg"
          = some v
        ∧ lookupKV (ElasticsearchDocStatusStorage.prepare_doc_status_data nowR
            (ElasticsearchDocStatusStorage.normalize_doc_status_input nowW d)) "error"
          = none) := by
  constructor
  · intro ev herr hmsg
    have hs : lookupKV (ElasticsearchDocStatusStorage.normalize_doc_status_input nowW d)
        "error" = some ev := by
      rw [ElasticsearchDocStatusStorage.normalize_lookup_error, herr]
    obtain ⟨he, hm⟩ := ElasticsearchDocStatusStorage.prepare_error_migration nowR _ ev hs
    refine ⟨?_, he⟩
    rw [hm, ElasticsearchDocStatusStorage.normalize_lookup_error_msg]
    simp only [Option.getD_some]
    rw [if_pos hmsg]
  · intro ev v herr hvm hne
    have hs : lookupKV (ElasticsearchDocStatusStorage.normalize_doc_status_input nowW d)
        "error" = some ev := by
      rw [ElasticsearchDocStatusStorage.normalize_lookup_error, herr]
    obtain ⟨he, hm⟩ := ElasticsearchDocStatusStorage.prepare_error_migration nowR _ ev hs
    refine ⟨?_, he⟩
    rw [hm, ElasticsearchDocStatusStorage.normalize_lookup_error_msg, hvm]
    simp only [Option.getD_some]
    rw [if_neg (by rw [hne]; exact Bool.false_ne_true)]

/-- C6 witness: concrete round trips for a record written with only a legacy
`error` field and for one with a non-empty `error_msg`. -/
theorem C6_legacy_error_migration_witness :
    (lookupKV [("error", JVal.str "boom")] "error" = some (JVal.str "boom")
      ∧ ElasticsearchDocStatusStorage.isNullOrEmptyStr ((lookupKV [("error", JVal.str "boom")] "error_msg").getD JVal.null)
          = true
      ∧ lookupKV (ElasticsearchDocStatusStorage.prepare_doc_status_data "r"
          (ElasticsearchDocStatusStorage.normalize_doc_status_input "w"
            [("error", JVal.str "boom")])) "error_msg" = some (JVal.str "boom")
      ∧ lookupKV (ElasticsearchDocStatusStorage.prepare_doc_status_data "r"
          (ElasticsearchDocStatusStorage.normalize_doc_status_input "w"
            [("error", JVal.str "boom")])) "error" = none)
    ∧ (lookupKV (ElasticsearchDocStatusStorage.prepare_doc_status_data "r"
          (ElasticsearchDocStatusStorage.normalize_doc_status_input "w"
            [("error", JVal.str "old"), ("error_msg", JVal.str "kept")])) "error_msg"
        = some (JVal.str "kept")
      ∧ lookupKV (ElasticsearchDocStatusStorage.prepare_doc_status_data "r"
          (ElasticsearchDocStatusStorage.normalize_doc_status_input "w"
            [("error", JVal.str "old"), ("error_msg", JVal.str "kept")])) "error"
        = none) := by
  constructor
  · refine ⟨rfl, rfl, ?_, ?_⟩
    · exact ((C6_legacy_error_migration "w" "r" [("error", JVal.str "boom")]).1
        (JVal.str "boom") rfl rfl).1
    · exact ((C6_legacy_error_migration "w" "r" [("error", JVal.str "boom")]).1
        (JVal.str "boom") rfl rfl).2
  · constructor
    · exact ((C6_legacy_error_migration "w" "r"
        [("error", JVal.str "old"), ("error_msg", JVal.str "kept")]).2
        (JVal.str "old") (JVal.str "kept") rfl rfl rfl).1
    · exact ((C6_legacy_error_migration "w" "r"
        [("error", JVal.str "old"), ("error_msg", JVal.str "kept")]).2
        (JVal.str "old") (JVal.str "kept") rfl rfl rfl).2

/-! ### C9: construction preconditions -/

/-- Python `s.strip()` (whitespace trim). -/
def pyStrip (s : String) : String :=
  ⟨((s.data.dropWhile Char.isWhitespace).reverse.dropWhile Char.isWhitespace).reverse⟩

/-- Python `s.lower()`. -/
def pyLower (s : String) : String :=
  ⟨s.data.map Char.toLower⟩

/-- Python `s.replace("_", "-")`. -/
def pyReplaceUnderscore (s : String) : String :=
  ⟨s.data.map (fun c => if c = '_' then '-' else c)⟩

/-- The fields every store's `__post_init__` computes; `es_client` stays unset
(`None`) until `initialize`, so construction performs no connection work. -/
structure StoreCommonInit where
  final_namespace : String
  workspace : String
  index_name : String
  es_client : Option Unit

/-- Workspace resolution shared by all three `__post_init__` bodies: the
`ELASTICSEARCH_WORKSPACE` environment variable overrides the passed workspace
when its stripped value is non-empty. -/
def effective_workspace (envW : Option String) (w : String) : String :=
  match envW with
  | some e => if (pyStrip e).data.isEmpty then w else pyStrip e
  | none => w

/-- The common `__post_init__` tail (e.g. lines 237-262): workspace-prefixed
namespace, workspace normalization, and index-name derivation
(`final_namespace.lower().replace("_", "-")`). -/
def post_init_common (envW : Option String) (w ns : String) : StoreCommonInit :=
  let ew := effective_workspace envW w
  if ew.data.isEmpty then
    { final_namespace := ns, workspace := "_",
      index_name := pyReplaceUnderscore (pyLower ns), es_client := none }
  else
    { final_namespace := ew ++ "_" ++ ns, workspace := ew,
      index_name := pyReplaceUnderscore (pyLower (ew ++ "_" ++ ns)), es_client := none }

/-- The parts of `global_config` the constructors read. -/
structure GlobalConfig where
  vector_db_storage_cls_kwargs : List (String × JVal)
  embedding_batch_num : Nat

namespace ElasticsearchKVStorage

/-- `ElasticsearchKVStorage.__post_init__` (lines 237-262): never raises. -/
def post_init (envW : Option String) (w ns : String) : Except String StoreCommonInit :=
  Except.ok (post_init_common envW w ns)

end ElasticsearchKVStorage

namespace ElasticsearchDocStatusStorage

/-- `ElasticsearchDocStatusStorage.__post_init__` (lines 627-641): never raises. -/
def post_init (envW : Option String) (w ns : String) : Except String StoreCommonInit :=
  Except.ok (post_init_common envW w ns)

end ElasticsearchDocStatusStorage

namespace ElasticsearchVectorStorage

/-- A constructed vector store. -/
structure VectorStoreInit where
  common : StoreCommonInit
  cosine_better_than_threshold : JVal
  max_batch_size : Nat

/-- `ElasticsearchVectorStorage.__post_init__` (lines 940-971): after the
common namespace work, reads `vector_db_storage_cls_kwargs` and raises
`ValueError` when `cosine_better_than_threshold` is absent or `None` —
before any connection or index work (which only happens in `initialize`). -/
def post_init (envW : Option String) (w ns : String) (cfg : GlobalConfig) :
    Except String VectorStoreInit :=
  let common := post_init_common envW w ns
  match lookupKV cfg.vector_db_storage_cls_kwargs "cosine_better_than_threshold" with
  | none => Except.error
      "cosine_better_than_threshold must be specified in vector_db_storage_cls_kwargs"
  | some JVal.null => Except.error
      "cosine_better_than_threshold must be specified in vector_db_storage_cls_kwargs"
  | some v => Except.ok
      { common := common, cosine_better_than_threshold := v,
        max_batch_size := cfg.embedding_batch_num }

end ElasticsearchVectorStorage

/-- C9: vector-store construction succeeds exactly when
`vector_db_storage_cls_kwargs` maps `cosine_better_than_threshold` to a
non-`None` value (otherwise it raises before any connection/index work —
constructed stores still have no client); key-value and doc-status store
construction has no such precondition. -/
theorem C9_vector_threshold_precondition (envW : Option String) (w ns : String)
    (cfg : GlobalConfig) :
    ((∃ s, ElasticsearchVectorStorage.post_init envW w ns cfg = Except.ok s)
      ↔ ∃ v, lookupKV cfg.vector_db_storage_cls_kwargs "cosine_better_than_threshold"
          = some v ∧ v ≠ JVal.null)
    ∧ (∀ s, ElasticsearchVectorStorage.post_init envW w ns cfg = Except.ok s →
        s.common.es_client = none)
    ∧ ElasticsearchKVStorage.post_init envW w ns
        = Except.ok (post_init_common envW w ns)
    ∧ ElasticsearchDocStatusStorage.post_init envW w ns
        = Except.ok (post_init_common envW w ns) := by
  have hcl : (post_init_common envW w ns).es_client = none := by
    unfold post_init_common
    by_cases he : (effective_workspace envW w).data.isEmpty
    · rw [if_pos he]
    · rw [if_neg he]
  refine ⟨?_, ?_, rfl, rfl⟩
  · unfold ElasticsearchVectorStorage.post_init
    cases hv : lookupKV cfg.vector_db_storage_cls_kwargs "cosine_better_than_threshold" with
    | none =>
      simp only [hv]
      constructor
      · rintro ⟨s, hs⟩
        cases hs
      · rintro ⟨v, hv', _⟩
        cases hv'
    | some v =>
      cases v with
      | null =>
        simp only [hv]
        constructor
        · rintro ⟨s, hs⟩
          cases hs
        · rintro ⟨v', hv', hne⟩
          cases hv'
          exact absurd rfl hne
      | str s => exact ⟨fun _ => ⟨JVal.str s, by simp [hv]⟩, fun _ => ⟨_, rfl⟩⟩
      | num n => exact ⟨fun _ => ⟨JVal.num n, by simp [hv]⟩, fun _ => ⟨_, rfl⟩⟩
      | arr xs => exact ⟨fun _ => ⟨JVal.arr xs, by simp [hv]⟩, fun _ => ⟨_, rfl⟩⟩
      | obj fs => exact ⟨fun _ => ⟨JVal.obj fs, by simp [hv]⟩, fun _ => ⟨_, rfl⟩⟩
  · intro s hs
    unfold ElasticsearchVectorStorage.post_init at hs
    cases hv : lookupKV cfg.vector_db_storage_cls_kwargs "cosine_better_than_threshold" with
    | none =>
      rw [hv] at hs
      cases hs
    | some v =>
      rw [hv] at hs
      cases v with
      | null => cases hs
      | str t =>
        cases hs
        exact hcl
      | num n =>
        cases hs
        exact hcl
      | arr xs =>
        cases hs
        exact hcl
      | obj fs =>
        cases hs
        exact hcl

/-- C9 witness: concrete constructions with and without the threshold. -/
theorem C9_vector_threshold_precondition_witness :
    ElasticsearchVectorStorage.post_init none "" "chunks"
        { vector_db_storage_cls_kwargs := [], embedding_batch_num := 10 }
      = Except.error
        "cosine_better_than_threshold must be specified in vector_db_storage_cls_kwargs"
    ∧ ElasticsearchKVStorage.post_init none "" "full_docs"
      = Except.ok (post_init_common none "" "full_docs") := by
  refine ⟨rfl, ?_⟩
  exact (C9_vector_threshold_precondition none "" "full_docs"
    { vector_db_storage_cls_kwargs := [], embedding_batch_num := 10 }).2.2.1

/-! ### C5: paginated doc-status listing -/

/-- Lexicographic code-point comparison, Python `<` on strings. -/
def strLtB : List Char → List Char → Bool
  | [], [] => false
  | [], _ :: _ => true
  | _ :: _, [] => false
  | a :: as, b :: bs =>
    if a.val < b.val then true
    else if b.val < a.val then false
    else strLtB as bs

/-- Python `a <= b` on strings (total preorder used by `list.sort`). -/
def strLeB (a b : String) : Bool :=
  !(strLtB b.data a.data)

theorem strLtB_nil (l : List Char) : strLtB l [] = false := by
  cases l <;> rfl

theorem strLeB_empty_left (s : String) : strLeB "" s = true := by
  rw [strLeB, strLtB_nil]
  rfl

namespace ElasticsearchDocStatusStorage

/-- The fields of a parsed `DocProcessingStatus` relevant to the paginated
listing (lines 825-869). -/
structure DocStatusRecord where
  status : String
  created_at : Option String
  updated_at : Option String
deriving DecidableEq

/-- The backend filter of the paginated listing: `match_all` without a status
filter, a `term` query on `status` with one (lines 838-840 with the scroll
semantics of `_scroll_hits`). -/
def filtered_docs (docs : List (String × DocStatusRecord))
    (status_filter : Option String) : List (String × DocStatusRecord) :=
  match status_filter with
  | none => docs
  | some s => docs.filter (fun d => d.2.status = s)

/-- The sort key of one record (lines 851-856 plus the `item[2] or ""` of
line 858): the doc id for `sort_field = "id"`, otherwise the timestamp
attribute with `None`/missing collapsing to `""`. -/
def sortKeyOf (sort_field : String) (doc_id : String) (r : DocStatusRecord) : String :=
  if sort_field = "id" then doc_id
  else (if sort_field = "created_at" then r.created_at else r.updated_at).getD ""

/-- `ElasticsearchDocStatusStorage.get_docs_paginated` (lines 825-869):
clamps page and page size, falls back to `updated_at` on an unknown sort
field, fetches the full filtered set, sorts it in memory (stable, with the
requested direction), slices the requested page and returns it with the total
filtered count. -/
def get_docs_paginated (docs : List (String × DocStatusRecord))
    (status_filter : Option String) (page page_size : Int)
    (sort_field sort_direction : String) :
    List (String × DocStatusRecord) × Nat :=
  let page := max 1 page
  let page_size := max 10 (min 200 page_size)
  let sort_field := if sort_field = "created_at" || sort_field = "updated_at"
      || sort_field = "id" then sort_field else "updated_at"
  let reverse_sort := pyLower sort_direction = "desc"
  let hits := filtered_docs docs status_filter
  let docs_with_sort := hits.map (fun d => (d.1, d.2, sortKeyOf sort_field d.1 d.2))
  let sorted := isort (fun a b =>
      if reverse_sort then strLeB b.2.2 a.2.2 else strLeB a.2.2 b.2.2) docs_with_sort
  let total_count := docs_with_sort.length
  let start_idx := ((page - 1) * page_size).toNat
  let paginated := ((sorted.drop start_idx).take page_size.toNat).map (fun d => (d.1, d.2.1))
  (paginated, total_count)

/-- The full filtered set, sorted exactly as `get_docs_paginated` sorts it
(same fallback, key and direction), without the slicing. -/
def full_sorted (docs : List (String × DocStatusRecord))
    (status_filter : Option String) (sort_field sort_direction : String) :
    List (String × DocStatusRecord) :=
  let sort_field := if sort_field = "created_at" || sort_field = "updated_at"
      || sort_field = "id" then sort_field else "updated_at"
  let reverse_sort := pyLower sort_direction = "desc"
  let hits := filtered_docs docs status_filter
  let docs_with_sort := hits.map (fun d => (d.1, d.2, sortKeyOf sort_field d.1 d.2))
  (isort (fun a b =>
      if reverse_sort then strLeB b.2.2 a.2.2 else strLeB a.2.2 b.2.2)
    docs_with_sort).map (fun d => (d.1, d.2.1))

theorem full_sorted_length (docs : List (String × DocStatusRecord))
    (status_filter : Option String) (sort_field sort_direction : String) :
    (full_sorted docs status_filter sort_field sort_direction).length
      = (filtered_docs docs status_filter).length := by
  simp only [full_sorted]
  rw [List.length_map, length_isort, List.length_map]

/-- Every page is the corresponding slice of the full sorted set. -/
theorem get_docs_paginated_slice (docs : List (String × DocStatusRecord))
    (status_filter : Option String) (page page_size : Int)
    (sort_field sort_direction : String) :
    (get_docs_paginated docs status_filter page page_size sort_field sort_direction).1
      = ((full_sorted docs status_filter sort_field sort_direction).drop
          ((max 1 page - 1) * max 10 (min 200 page_size)).toNat).take
          (max 10 (min 200 page_size)).toNat := by
  simp only [get_docs_paginated, full_sorted]
  rw [List.map_take, List.map_drop]

end ElasticsearchDocStatusStorage

/-- Concatenating the `sz`-sized slices numbered `0..N-1` of a list of length
at most `N * sz` recovers the list. -/
theorem flatMap_slices (sz : Nat) :
    ∀ (N : Nat) (l : List β), l.length ≤ N * sz →
      (List.range N).flatMap (fun i => (l.drop (i * sz)).take sz) = l := by
  intro N
  induction N with
  | zero =>
    intro l hl
    rw [Nat.zero_mul, Nat.le_zero] at hl
    rw [List.length_eq_zero] at hl
    subst hl
    rfl
  | succ n ih =>
    intro l hl
    rw [List.range_succ_eq_map, List.flatMap_cons, List.flatMap_map]
    have harm : (fun a : Nat => (l.drop (a.succ * sz)).take sz)
        = (fun a : Nat => ((l.drop sz).drop (a * sz)).take sz) := by
      funext i
      rw [List.drop_drop, Nat.succ_mul, Nat.add_comm]
    have hlen : (l.drop sz).length ≤ n * sz := by
      rw [List.length_drop]
      have h2 : (n + 1) * sz = n * sz + sz := Nat.succ_mul n sz
      omega
    calc (l.drop (0 * sz)).take sz
          ++ (List.range n).flatMap ((fun i => (l.drop (i * sz)).take sz) ∘ Nat.succ)
        = (l.drop (0 * sz)).take sz
          ++ (List.range n).flatMap (fun a => ((l.drop sz).drop (a * sz)).take sz) := by
          rw [show ((fun i => (l.drop (i * sz)).take sz) ∘ Nat.succ)
            = (fun a : Nat => (l.drop (a.succ * sz)).take sz) from rfl, harm]
      _ = l.take sz ++ l.drop sz := by
          rw [ih (l.drop sz) hlen, Nat.zero_mul, List.drop_zero]
      _ = l := List.take_append_drop sz l

/-- C5: the paginated doc-status listing clamps `page` to at least 1 and
`page_size` to `[10, 200]`; an unknown `sort_field` falls back to
`updated_at`; a missing or empty sort key becomes `""`, the bottom of the
string order used; every result is the slice
`[(page-1)*page_size, page*page_size)` of the full filtered set sorted in
memory, returned with the total filtered count; and concatenating pages
`1..N` reconstructs the full filtered, sorted set. -/
theorem C5_get_docs_paginated (docs : List (String × ElasticsearchDocStatusStorage.DocStatusRecord))
    (status_filter : Option String) (page page_size : Int)
    (sort_field sort_direction : String) :
    ElasticsearchDocStatusStorage.get_docs_paginated docs status_filter
        (max 1 page) (max 10 (min 200 page_size)) sort_field sort_direction
      = ElasticsearchDocStatusStorage.get_docs_paginated docs status_filter
        page page_size sort_field sort_direction
    ∧ ((sort_field = "created_at" || sort_field = "updated_at" || sort_field = "id") = false →
        ElasticsearchDocStatusStorage.get_docs_paginated docs status_filter
          page page_size sort_field sort_direction
        = ElasticsearchDocStatusStorage.get_docs_paginated docs status_filter
          page page_size "updated_at" sort_direction)
    ∧ (ElasticsearchDocStatusStorage.get_docs_paginated docs status_filter
        page page_size sort_field sort_direction).2
      = (ElasticsearchDocStatusStorage.filtered_docs docs status_filter).length
    ∧ (ElasticsearchDocStatusStorage.get_docs_paginated docs status_filter
        page page_size sort_field sort_direction).1
      = ((ElasticsearchDocStatusStorage.full_sorted docs status_filter
          sort_field sort_direction).drop
          ((max 1 page - 1) * max 10 (min 200 page_size)).toNat).take
          (max 10 (min 200 page_size)).toNat
    ∧ ((∀ (doc_id : String) (r : ElasticsearchDocStatusStorage.DocStatusRecord),
          r.updated_at = none ∨ r.updated_at = some "" →
          ElasticsearchDocStatusStorage.sortKeyOf "updated_at" doc_id r = "")
       ∧ ∀ s : String, strLeB "" s = true)
    ∧ ∀ N : Nat,
        (ElasticsearchDocStatusStorage.filtered_docs docs status_filter).length
          ≤ N * (max 10 (min 200 page_size)).toNat →
        (List.range N).flatMap (fun i =>
          (ElasticsearchDocStatusStorage.get_docs_paginated docs status_filter
            ((i : Int) + 1) page_size sort_field sort_direction).1)
          = ElasticsearchDocStatusStorage.full_sorted docs status_filter
              sort_field sort_direction := by
  have hp : max 1 (max 1 page) = max 1 page := by rw [← max_assoc, max_self]
  have hs : max 10 (min 200 (max 10 (min 200 page_size))) = max 10 (min 200 page_size) := by
    have hq : min 200 page_size ≤ 200 := min_le_left _ _
    have h1 : min 200 (max 10 (min 200 page_size)) = max 10 (min 200 page_size) :=
      min_eq_right (max_le (by norm_num) hq)
    rw [h1, ← max_assoc, max_self]
  have hps0 : (0 : Int) ≤ max 10 (min 200 page_size) :=
    le_trans (by norm_num) (le_max_left _ _)
  refine ⟨?_, ?_, ?_, ElasticsearchDocStatusStorage.get_docs_paginated_slice docs
      status_filter page page_size sort_field sort_direction, ⟨?_, strLeB_empty_left⟩, ?_⟩
  · simp only [ElasticsearchDocStatusStorage.get_docs_paginated, hp, hs]
  · intro hsf
    simp only [ElasticsearchDocStatusStorage.get_docs_paginated]
    rw [hsf]
    simp only [Bool.false_eq_true, if_false, ite_self]
  · simp only [ElasticsearchDocStatusStorage.get_docs_paginated]
    rw [List.length_map]
  · intro doc_id r h
    unfold ElasticsearchDocStatusStorage.sortKeyOf
    rw [if_neg (by decide), if_neg (by decide)]
    rcases h with h | h <;> rw [h] <;> rfl
  · intro N hN
    have hpage : ∀ i : Nat,
        (ElasticsearchDocStatusStorage.get_docs_paginated docs status_filter
          ((i : Int) + 1) page_size sort_field sort_direction).1
        = ((ElasticsearchDocStatusStorage.full_sorted docs status_filter
            sort_field sort_direction).drop
            (i * (max 10 (min 200 page_size)).toNat)).take
            (max 10 (min 200 page_size)).toNat := by
      intro i
      rw [ElasticsearchDocStatusStorage.get_docs_paginated_slice]
      have h1 : max 1 ((i : Int) + 1) = (i : Int) + 1 :=
        max_eq_right (by omega)
      rw [h1, add_sub_cancel_right]
      congr 1
      obtain ⟨m, hm⟩ : ∃ m : Nat, max 10 (min 200 page_size) = (m : Int) :=
        ⟨(max 10 (min 200 page_size)).toNat, (Int.toNat_of_nonneg hps0).symm⟩
      rw [hm]
      rw [show ((i : Int) * (m : Int)) = ((i * m : Nat) : Int) by push_cast; ring]
      rw [Int.toNat_natCast, Int.toNat_natCast]
    rw [show (fun i : Nat =>
        (ElasticsearchDocStatusStorage.get_docs_paginated docs status_filter
          ((i : Int) + 1) page_size sort_field sort_direction).1)
      = (fun i : Nat =>
        ((ElasticsearchDocStatusStorage.full_sorted docs status_filter
            sort_field sort_direction).drop
            (i * (max 10 (min 200 page_size)).toNat)).take
            (max 10 (min 200 page_size)).toNat) from funext hpage]
    refine flatMap_slices _ N _ ?_
    rw [ElasticsearchDocStatusStorage.full_sorted_length]
    exact hN

/-- C5 witness: concrete pagination over two records with out-of-range paging
parameters and an unknown sort field. -/
theorem C5_get_docs_paginated_witness :
    (ElasticsearchDocStatusStorage.get_docs_paginated
        [("a", ⟨"PENDING", some "2", some "2"⟩), ("b", ⟨"DONE", none, none⟩)]
        none 0 0 "bogus" "desc").2
      = (ElasticsearchDocStatusStorage.filtered_docs
        [("a", ⟨"PENDING", some "2", some "2"⟩), ("b", ⟨"DONE", none, none⟩)] none).length
    ∧ ((("bogus" : String) = "created_at" || ("bogus" : String) = "updated_at"
          || ("bogus" : String) = "id") = false →
        ElasticsearchDocStatusStorage.get_docs_paginated
          [("a", ⟨"PENDING", some "2", some "2"⟩), ("b", ⟨"DONE", none, none⟩)]
          none 0 0 "bogus" "desc"
        = ElasticsearchDocStatusStorage.get_docs_paginated
          [("a", ⟨"PENDING", some "2", some "2"⟩), ("b", ⟨"DONE", none, none⟩)]
          none 0 0 "updated_at" "desc")
    ∧ (List.range 1).flatMap (fun i =>
        (ElasticsearchDocStatusStorage.get_docs_paginated
          [("a", ⟨"PENDING", some "2", some "2"⟩), ("b", ⟨"DONE", none, none⟩)]
          none ((i : Int) + 1) 0 "bogus" "desc").1)
      = ElasticsearchDocStatusStorage.full_sorted
          [("a", ⟨"PENDING", some "2", some "2"⟩), ("b", ⟨"DONE", none, none⟩)]
          none "bogus" "desc" := by
  refine ⟨?_, ?_, ?_⟩
  · exact (C5_get_docs_paginated
      [("a", ⟨"PENDING", some "2", some "2"⟩), ("b", ⟨"DONE", none, none⟩)]
      none 0 0 "bogus" "desc").2.2.1
  · exact (C5_get_docs_paginated
      [("a", ⟨"PENDING", some "2", some "2"⟩), ("b", ⟨"DONE", none, none⟩)]
      none 0 0 "bogus" "desc").2.1
  · exact (C5_get_docs_paginated
      [("a", ⟨"PENDING", some "2", some "2"⟩), ("b", ⟨"DONE", none, none⟩)]
      none 0 0 "bogus" "desc").2.2.2.2.2 1 (by decide)

/-! ### C2: connection manager reference counting -/

namespace ElasticsearchConnectionManager

/-- One call on the connection manager: `get_client`, or `release_client`
passing the client with construction id `cid`. -/
inductive COp where
  | get : COp
  | release (cid : Nat) : COp
deriving DecidableEq

/-- The manager's class-level state plus construction/close history: `inst` is
`cls._instance` (identified by construction id), `refCount` is
`cls._ref_count`; `constructed` and `closed` record every
`AsyncElasticsearch(...)` construction and every `close()`, in order. -/
structure ConnState where
  inst : Option Nat
  refCount : Nat
  nextId : Nat
  constructed : List Nat
  closed : List Nat
deriving DecidableEq

def connInit : ConnState :=
  { inst := none, refCount := 0, nextId := 0, constructed := [], closed := [] }

/-- `get_client` (lines 39-96) and `release_client` (lines 98-105), each
executed under the class lock: `get` builds a fresh connection when
`_instance is None` (resetting `_ref_count = 0`) and then increments the
counter; `release cid` is a no-op unless `cid` is the live instance
(`client is cls._instance`), otherwise decrements and, at zero, closes the
connection and clears the instance. -/
def connStep (s : ConnState) : COp → ConnState
  | COp.get =>
    match s.inst with
    | none =>
      { inst := some s.nextId, refCount := 0 + 1, nextId := s.nextId + 1,
        constructed := s.constructed ++ [s.nextId], closed := s.closed }
    | some _ => { s with refCount := s.refCount + 1 }
  | COp.release cid =>
    match s.inst with
    | some i =>
      if cid = i then
        if s.refCount - 1 = 0 then
          { s with
            inst := none
            refCount := s.refCount - 1
            closed := s.closed ++ [i] }
        else { s with refCount := s.refCount - 1 }
      else s
    | none => s

/-- Run a call trace from a state. -/
def connRun (s : ConnState) (t : List COp) : ConnState :=
  t.foldl connStep s

/-- A matched trace: every release passes the client returned by a
still-unreleased earlier `get` — under the manager's semantics that client is
exactly the currently live instance. -/
def matchedB : ConnState → List COp → Bool
  | _, [] => true
  | s, COp.get :: t => matchedB (connStep s COp.get) t
  | s, COp.release cid :: t =>
    decide (s.inst = some cid) && matchedB (connStep s (COp.release cid)) t

/-- The reference-counting invariant: the connection is alive iff the count is
positive, the closed list is exactly the constructed list minus the live
connection, and ids are handed out consecutively. -/
def ConnInv (s : ConnState) : Prop :=
  (s.inst.isSome ↔ 0 < s.refCount)
  ∧ (∀ i, s.inst = some i → s.constructed = s.closed ++ [i] ∧ i + 1 = s.nextId)
  ∧ (s.inst = none → s.constructed = s.closed)
  ∧ s.constructed = List.range s.nextId

theorem connInv_init : ConnInv connInit := by
  refine ⟨by simp [connInit], ?_, fun _ => rfl, rfl⟩
  intro i hi
  cases hi

theorem connInv_step (s : ConnState) (op : COp) (h : ConnInv s)
    (hok : match op with
           | COp.get => True
           | COp.release cid => s.inst = some cid) :
    ConnInv (connStep s op) := by
  obtain ⟨h1, h2, h3, h4⟩ := h
  cases op with
  | get =>
    cases hs : s.inst with
    | none =>
      simp only [connStep, hs]
      refine ⟨by simp, ?_, ?_, ?_⟩
      · intro i hi
        simp only at hi
        cases hi
        exact ⟨by rw [h3 hs], rfl⟩
      · intro hnone
        cases hnone
      · simp only
        rw [h4, List.range_succ]
    | some i =>
      simp only [connStep, hs]
      refine ⟨by simp, ?_, ?_, h4⟩
      · intro j hj
        have hj2 : some i = some j := hj
        cases hj2
        exact h2 i hs
      · intro hnone
        have hn2 : some i = (none : Option Nat) := hnone
        exact Option.noConfusion hn2
  | release cid =>
    simp only at hok
    obtain ⟨hc, hn⟩ := h2 cid hok
    have hrcpos : 0 < s.refCount := h1.mp (by rw [hok]; rfl)
    have hstep : connStep s (COp.release cid)
        = if s.refCount - 1 = 0 then
            { s with
              inst := none
              refCount := s.refCount - 1
              closed := s.closed ++ [cid] }
          else { s with refCount := s.refCount - 1 } := by
      simp only [connStep, hok]
      rw [if_pos trivial]
    rw [hstep]
    by_cases hrc : s.refCount - 1 = 0
    · rw [if_pos hrc]
      refine ⟨by simp [hrc], ?_, ?_, h4⟩
      · intro j hj
        exact Option.noConfusion hj
      · intro _
        exact hc
    · rw [if_neg hrc]
      refine ⟨?_, ?_, ?_, h4⟩
      · constructor
        · intro _
          show 0 < s.refCount - 1
          omega
        · intro _
          show s.inst.isSome = true
          rw [hok]
          rfl
      · intro j hj
        have hj2 : s.inst = some j := hj
        rw [hok] at hj2
        cases hj2
        exact ⟨hc, hn⟩
      · intro hnone
        have hn2 : s.inst = none := hnone
        rw [hok] at hn2
        exact Option.noConfusion hn2

theorem connInv_run (t : List COp) :
    ∀ s, matchedB s t = true → ConnInv s → ConnInv (connRun s t) := by
  induction t with
  | nil => intro s _ h; exact h
  | cons op t ih =>
    intro s hm h
    cases op with
    | get =>
      rw [matchedB] at hm
      exact ih (connStep s COp.get) hm (connInv_step s COp.get h trivial)
    | release cid =>
      rw [matchedB, Bool.and_eq_true] at hm
      obtain ⟨hinst, hrest⟩ := hm
      exact ih (connStep s (COp.release cid)) hrest
        (connInv_step s (COp.release cid) h (of_decide_eq_true hinst))

theorem matchedB_append (p : List COp) :
    ∀ (s : ConnState) (q : List COp), matchedB s (p ++ q) = true →
      matchedB s p = true := by
  induction p with
  | nil => intro s q _; rfl
  | cons op t ih =>
    intro s q hm
    cases op with
    | get =>
      rw [List.cons_append, matchedB] at hm
      rw [matchedB]
      exact ih _ q hm
    | release cid =>
      rw [List.cons_append, matchedB, Bool.and_eq_true] at hm
      rw [matchedB, Bool.and_eq_true]
      exact ⟨hm.1, ih _ q hm.2⟩

theorem connRun_append (s : ConnState) (p q : List COp) :
    connRun s (p ++ q) = connRun (connRun s p) q := by
  simp [connRun]

theorem connStep_release_eq (s : ConnState) (cid : Nat) (hok : s.inst = some cid) :
    connStep s (COp.release cid)
      = if s.refCount - 1 = 0 then
          { s with
            inst := none
            refCount := s.refCount - 1
            closed := s.closed ++ [cid] }
        else { s with refCount := s.refCount - 1 } := by
  simp only [connStep, hok]
  rw [if_pos trivial]

/-- While the connection stays alive at every intermediate state, no new
connection is constructed. -/
theorem conn_no_new_construct (t : List COp) :
    ∀ s, matchedB s t = true → ConnInv s → s.inst.isSome = true →
      (∀ p q, t = p ++ q → q ≠ [] → 0 < (connRun s p).refCount) →
      (connRun s t).constructed = s.constructed := by
  induction t with
  | nil => intro s _ _ _ _; rfl
  | cons op t ih =>
    intro s hm hinv hsome hpos
    cases op with
    | get =>
      obtain ⟨i, hs⟩ : ∃ i, s.inst = some i := Option.isSome_iff_exists.mp hsome
      have hstep : connStep s COp.get = { s with refCount := s.refCount + 1 } := by
        simp only [connStep, hs]
      rw [matchedB] at hm
      have hinv1 := connInv_step s COp.get hinv trivial
      have hsome1 : (connStep s COp.get).inst.isSome = true := by
        rw [hstep]
        exact hsome
      have hpos1 : ∀ p q, t = p ++ q → q ≠ [] →
          0 < (connRun (connStep s COp.get) p).refCount := by
        intro p q hpq hq
        exact hpos (COp.get :: p) q (by rw [hpq, List.cons_append]) hq
      have h2 := ih (connStep s COp.get) hm hinv1 hsome1 hpos1
      show (connRun (connStep s COp.get) t).constructed = s.constructed
      rw [h2, hstep]
    | release cid =>
      rw [matchedB, Bool.and_eq_true] at hm
      obtain ⟨hinst, hm2⟩ := hm
      have hok : s.inst = some cid := of_decide_eq_true hinst
      have hstep := connStep_release_eq s cid hok
      cases t with
      | nil =>
        show (connStep s (COp.release cid)).constructed = s.constructed
        rw [hstep]
        by_cases hrc : s.refCount - 1 = 0
        · rw [if_pos hrc]
        · rw [if_neg hrc]
      | cons op2 t2 =>
        have hposrel := hpos [COp.release cid] (op2 :: t2) rfl (by simp)
        have hrcount : (connRun s [COp.release cid]).refCount = s.refCount - 1 := by
          show (connStep s (COp.release cid)).refCount = s.refCount - 1
          rw [hstep]
          by_cases hrc : s.refCount - 1 = 0
          · rw [if_pos hrc]
          · rw [if_neg hrc]
        have hrc : ¬(s.refCount - 1 = 0) := by
          rw [hrcount] at hposrel
          omega
        have hstep2 : connStep s (COp.release cid)
            = { s with refCount := s.refCount - 1 } := by
          rw [hstep, if_neg hrc]
        have hinv2 := connInv_step s (COp.release cid) hinv hok
        have hsome2 : (connStep s (COp.release cid)).inst.isSome = true := by
          rw [hstep2]
          show s.inst.isSome = true
          rw [hok]
          rfl
        have hpos2 : ∀ p q, op2 :: t2 = p ++ q → q ≠ [] →
            0 < (connRun (connStep s (COp.release cid)) p).refCount := by
          intro p q hpq hq
          exact hpos (COp.release cid :: p) q (by rw [hpq, List.cons_append]) hq
        have h2 := ih (connStep s (COp.release cid)) hm2 hinv2 hsome2 hpos2
        show (connRun (connStep s (COp.release cid)) (op2 :: t2)).constructed
          = s.constructed
        rw [h2, hstep2]

end ElasticsearchConnectionManager

/-- C2 (amended, proved form): over every matched trace of `get_client` and
`release_client` calls, (a) at every state the shared connection is alive iff
the reference count is positive; (b) the closed connections are exactly the
constructed ones except the live one — each closed at most once; (c) when the
reference count stays positive strictly between the first call and the final
release that brings it to zero, exactly one connection is constructed and it
is closed exactly once; (d) once the count reaches zero, the next `get_client`
builds a fresh connection never constructed before. -/
theorem C2_connection_lifecycle (t : List ElasticsearchConnectionManager.COp)
    (h : ElasticsearchConnectionManager.matchedB
      ElasticsearchConnectionManager.connInit t = true) :
    (∀ p q, t = p ++ q →
      ((ElasticsearchConnectionManager.connRun
          ElasticsearchConnectionManager.connInit p).inst.isSome
        ↔ 0 < (ElasticsearchConnectionManager.connRun
          ElasticsearchConnectionManager.connInit p).refCount))
    ∧ ((ElasticsearchConnectionManager.connRun
          ElasticsearchConnectionManager.connInit t).inst = none →
        (ElasticsearchConnectionManager.connRun
          ElasticsearchConnectionManager.connInit t).constructed
        = (ElasticsearchConnectionManager.connRun
          ElasticsearchConnectionManager.connInit t).closed)
    ∧ (∀ i, (ElasticsearchConnectionManager.connRun
          ElasticsearchConnectionManager.connInit t).inst = some i →
        (ElasticsearchConnectionManager.connRun
          ElasticsearchConnectionManager.connInit t).constructed
        = (ElasticsearchConnectionManager.connRun
          ElasticsearchConnectionManager.connInit t).closed ++ [i])
    ∧ (ElasticsearchConnectionManager.connRun
        ElasticsearchConnectionManager.connInit t).closed.Nodup
    ∧ (t ≠ [] →
        (ElasticsearchConnectionManager.connRun
          ElasticsearchConnectionManager.connInit t).refCount = 0 →
        (∀ p q, t = p ++ q → p ≠ [] → q ≠ [] →
          0 < (ElasticsearchConnectionManager.connRun
            ElasticsearchConnectionManager.connInit p).refCount) →
        (ElasticsearchConnectionManager.connRun
          ElasticsearchConnectionManager.connInit t).constructed.length = 1
        ∧ (ElasticsearchConnectionManager.connRun
          ElasticsearchConnectionManager.connInit t).closed.length = 1)
    ∧ ((ElasticsearchConnectionManager.connRun
          ElasticsearchConnectionManager.connInit t).refCount = 0 →
        (ElasticsearchConnectionManager.connRun
          ElasticsearchConnectionManager.connInit
          (t ++ [ElasticsearchConnectionManager.COp.get])).inst
          = some (ElasticsearchConnectionManager.connRun
            ElasticsearchConnectionManager.connInit t).nextId
        ∧ (ElasticsearchConnectionManager.connRun
            ElasticsearchConnectionManager.connInit t).nextId
          ∉ (ElasticsearchConnectionManager.connRun
            ElasticsearchConnectionManager.connInit t).constructed) := by
  obtain ⟨hi1, hi2, hi3, hi4⟩ :=
    ElasticsearchConnectionManager.connInv_run t
      ElasticsearchConnectionManager.connInit h
      ElasticsearchConnectionManager.connInv_init
  refine ⟨?_, hi3, fun i hi => (hi2 i hi).1, ?_, ?_, ?_⟩
  · intro p q hpq
    have hm := ElasticsearchConnectionManager.matchedB_append p
      ElasticsearchConnectionManager.connInit q (by rw [← hpq]; exact h)
    exact (ElasticsearchConnectionManager.connInv_run p
      ElasticsearchConnectionManager.connInit hm
      ElasticsearchConnectionManager.connInv_init).1
  · have hnodup : (ElasticsearchConnectionManager.connRun
        ElasticsearchConnectionManager.connInit t).constructed.Nodup := by
      rw [hi4]
      exact List.nodup_range _
    cases hcase : (ElasticsearchConnectionManager.connRun
        ElasticsearchConnectionManager.connInit t).inst with
    | none =>
      rw [← hi3 hcase]
      exact hnodup
    | some i =>
      rw [(hi2 i hcase).1] at hnodup
      exact List.Nodup.of_append_left hnodup
  · intro hne hrc0 hpos
    cases t with
    | nil => exact absurd rfl hne
    | cons op t' =>
      cases op with
      | release cid =>
        exfalso
        rw [ElasticsearchConnectionManager.matchedB] at h
        rw [show (decide ((ElasticsearchConnectionManager.connInit.inst : Option Nat)
            = some cid)) = false from rfl] at h
        simp at h
      | get =>
        have hm1 : ElasticsearchConnectionManager.matchedB
            (ElasticsearchConnectionManager.connStep
              ElasticsearchConnectionManager.connInit
              ElasticsearchConnectionManager.COp.get) t' = true := by
          rw [ElasticsearchConnectionManager.matchedB] at h
          exact h
        have hinv1 := ElasticsearchConnectionManager.connInv_step
          ElasticsearchConnectionManager.connInit
          ElasticsearchConnectionManager.COp.get
          ElasticsearchConnectionManager.connInv_init trivial
        have hpos1 : ∀ p q, t' = p ++ q → q ≠ [] →
            0 < (ElasticsearchConnectionManager.connRun
              (ElasticsearchConnectionManager.connStep
                ElasticsearchConnectionManager.connInit
                ElasticsearchConnectionManager.COp.get) p).refCount := by
          intro p q hpq hq
          exact hpos (ElasticsearchConnectionManager.COp.get :: p) q
            (by rw [hpq, List.cons_append]) (by simp) hq
        have hcon := ElasticsearchConnectionManager.conn_no_new_construct t' _
          hm1 hinv1 rfl hpos1
        have hconstr : (ElasticsearchConnectionManager.connRun
            ElasticsearchConnectionManager.connInit
            (ElasticsearchConnectionManager.COp.get :: t')).constructed = [0] := by
          show (ElasticsearchConnectionManager.connRun
            (ElasticsearchConnectionManager.connStep
              ElasticsearchConnectionManager.connInit
              ElasticsearchConnectionManager.COp.get) t').constructed = [0]
          rw [hcon]
          rfl
        have hnone : (ElasticsearchConnectionManager.connRun
            ElasticsearchConnectionManager.connInit
            (ElasticsearchConnectionManager.COp.get :: t')).inst = none := by
          cases hcase : (ElasticsearchConnectionManager.connRun
              ElasticsearchConnectionManager.connInit
              (ElasticsearchConnectionManager.COp.get :: t')).inst with
          | none => rfl
          | some i =>
            exfalso
            have hs : (ElasticsearchConnectionManager.connRun
                ElasticsearchConnectionManager.connInit
                (ElasticsearchConnectionManager.COp.get :: t')).inst.isSome = true := by
              rw [hcase]
              rfl
            have := hi1.mp hs
            omega
        constructor
        · rw [hconstr]
          rfl
        · rw [← hi3 hnone, hconstr]
          rfl
  · intro hrc0
    have hnone : (ElasticsearchConnectionManager.connRun
        ElasticsearchConnectionManager.connInit t).inst = none := by
      cases hcase : (ElasticsearchConnectionManager.connRun
          ElasticsearchConnectionManager.connInit t).inst with
      | none => rfl
      | some i =>
        exfalso
        have hs : (ElasticsearchConnectionManager.connRun
            ElasticsearchConnectionManager.connInit t).inst.isSome = true := by
          rw [hcase]
          rfl
        have := hi1.mp hs
        omega
    constructor
    · rw [ElasticsearchConnectionManager.connRun_append]
      show (ElasticsearchConnectionManager.connStep
          (ElasticsearchConnectionManager.connRun
            ElasticsearchConnectionManager.connInit t)
          ElasticsearchConnectionManager.COp.get).inst
        = some (ElasticsearchConnectionManager.connRun
            ElasticsearchConnectionManager.connInit t).nextId
      simp only [ElasticsearchConnectionManager.connStep, hnone]
    · rw [hi4]
      intro hmem
      exact absurd (List.mem_range.mp hmem) (lt_irrefl _)

/-- C2 counterexample: the matched interleaving get, release, get, release
(two `get_client` calls, two matching `release_client` calls) constructs two
underlying connections, not one: the count reaches zero mid-sequence and the
next get builds afresh. -/
theorem C2_counterexample :
    ElasticsearchConnectionManager.matchedB
      ElasticsearchConnectionManager.connInit
      [ElasticsearchConnectionManager.COp.get,
        ElasticsearchConnectionManager.COp.release 0,
        ElasticsearchConnectionManager.COp.get,
        ElasticsearchConnectionManager.COp.release 1] = true
    ∧ ¬ ((ElasticsearchConnectionManager.connRun
        ElasticsearchConnectionManager.connInit
        [ElasticsearchConnectionManager.COp.get,
          ElasticsearchConnectionManager.COp.release 0,
          ElasticsearchConnectionManager.COp.get,
          ElasticsearchConnectionManager.COp.release 1]).constructed.length = 1) := by
  refine ⟨by decide, by decide⟩

/-- C2 witness: on the matched trace get, get, release, release the final
closed list has no duplicates, and after the count reaches zero a further
`get_client` constructs the fresh connection id 1. -/
theorem C2_connection_lifecycle_witness :
    (ElasticsearchConnectionManager.connRun
      ElasticsearchConnectionManager.connInit
      [ElasticsearchConnectionManager.COp.get,
        ElasticsearchConnectionManager.COp.get,
        ElasticsearchConnectionManager.COp.release 0,
        ElasticsearchConnectionManager.COp.release 0]).closed.Nodup
    ∧ (ElasticsearchConnectionManager.connRun
        ElasticsearchConnectionManager.connInit
        ([ElasticsearchConnectionManager.COp.get,
          ElasticsearchConnectionManager.COp.get,
          ElasticsearchConnectionManager.COp.release 0,
          ElasticsearchConnectionManager.COp.release 0]
          ++ [ElasticsearchConnectionManager.COp.get])).inst
      = some (ElasticsearchConnectionManager.connRun
          ElasticsearchConnectionManager.connInit
          [ElasticsearchConnectionManager.COp.get,
            ElasticsearchConnectionManager.COp.get,
            ElasticsearchConnectionManager.COp.release 0,
            ElasticsearchConnectionManager.COp.release 0]).nextId :=
  ⟨(C2_connection_lifecycle
      [ElasticsearchConnectionManager.COp.get,
        ElasticsearchConnectionManager.COp.get,
        ElasticsearchConnectionManager.COp.release 0,
        ElasticsearchConnectionManager.COp.release 0] (by decide)).2.2.2.1,
    ((C2_connection_lifecycle
      [ElasticsearchConnectionManager.COp.get,
        ElasticsearchConnectionManager.COp.get,
        ElasticsearchConnectionManager.COp.release 0,
        ElasticsearchConnectionManager.COp.release 0] (by decide)).2.2.2.2.2
      (by decide)).1⟩

/-- C7 witness: a concrete hybrid query issues the one expected request and
returns at most `top_k` results. -/
theorem C7_hybrid_query_witness :
    (ElasticsearchVectorStorage.query
        (fun r => Except.ok (ElasticsearchVectorStorage.esRrfHits [] ["a"] ["b"] r))
        "q" 2 []).2
      = [ElasticsearchVectorStorage.buildHybridRequest "q" 2 []]
    ∧ (ElasticsearchVectorStorage.query
        (fun r => Except.ok (ElasticsearchVectorStorage.esRrfHits [] ["a"] ["b"] r))
        "q" 2 []).1.length ≤ 2 :=
  ⟨(C7_hybrid_query [] ["a"] ["b"] "q" 2 []).1,
    (C7_hybrid_query [] ["a"] ["b"] "q" 2 []).2.2.2.2.2.2.2.2.2.2.1⟩

/-! ### C10: empty-input guards across all three stores -/

namespace ElasticsearchVectorStorage

/-- `ElasticsearchVectorStorage.upsert` (lines 987-1028): an empty payload
returns before any embedding or backend work; otherwise the contents are
split into batches of `max_batch_size`, one embedding computation runs per
batch (`embed`, an opaque value per content), the results are concatenated in
order, and one bulk request indexes content plus the `meta_fields` allow-list
plus embedding and both timestamps (`create_time` unconditionally reset). -/
def upsert (embed : List JVal → List JVal) (max_batch_size : Nat)
    (meta_fields : List String) (store : Store) (data : List (String × Doc))
    (now : Int) : Store × List ESCall :=
  if data.isEmpty then (store, [])
  else
    let contents := data.map (fun kv => (lookupKV kv.2 "content").getD JVal.null)
    let batches := (List.range
        ((contents.length + max_batch_size - 1) / max_batch_size)).map
      (fun i => (contents.drop (i * max_batch_size)).take max_batch_size)
    let embeddings := (batches.map embed).flatten
    let actions := (data.zip embeddings).map (fun kv =>
      let doc := kv.1.2.filter (fun f => f.1 ∈ meta_fields || f.1 = "content")
      let doc := setKV doc "embedding" kv.2
      let doc := setKV doc "create_time" (JVal.num now)
      let doc := setKV doc "update_time" (JVal.num now)
      (kv.1.1, doc))
    (actions.foldl (fun s a => setKV s a.1 a.2) store, [ESCall.bulkIndex actions])

/-- `ElasticsearchVectorStorage.delete` (lines 1148-1166): bulk delete by id,
returning immediately on an empty id list. -/
def delete (store : Store) (ids : List String) : Store × List ESCall :=
  if ids.isEmpty then (store, [])
  else (ids.foldl (fun s i => eraseKV s i) store, [ESCall.bulkDelete ids])

end ElasticsearchVectorStorage

namespace ElasticsearchDocStatusStorage

/-- `ElasticsearchDocStatusStorage.upsert` (lines 710-730): an empty payload
returns before any backend call; otherwise every entry is normalized via
`_normalize_doc_status_input` and indexed by one bulk request. -/
def upsert (now_iso : String) (store : Store) (data : List (String × Doc)) :
    Store × List ESCall :=
  if data.isEmpty then (store, [])
  else
    let actions := data.map (fun kv => (kv.1, normalize_doc_status_input now_iso kv.2))
    (actions.foldl (fun s a => setKV s a.1 a.2) store, [ESCall.bulkIndex actions])

/-- `ElasticsearchDocStatusStorage.delete` (lines 743-764): bulk delete by id,
returning immediately on an empty id list. -/
def delete (store : Store) (doc_ids : List String) : Store × List ESCall :=
  if doc_ids.isEmpty then (store, [])
  else (doc_ids.foldl (fun s i => eraseKV s i) store, [ESCall.bulkDelete doc_ids])

/-- `ElasticsearchDocStatusStorage.get_by_ids` (lines 677-698): empty input
returns `[]` before the mget; otherwise the response docs are mapped in
request order, found ones through `_prepare_doc_status_data`, missing ones to
`None`; a backend error yields `[None] * len(ids)`. -/
def get_by_ids (now_iso : String) (backend : Except String Store)
    (ids : List String) : List (Option Doc) × List ESCall :=
  if ids.isEmpty then ([], [])
  else
    match backend with
    | .error _ => (List.replicate ids.length none, [ESCall.mget ids])
    | .ok store =>
      (ids.map (fun id => (lookupKV store id).map (prepare_doc_status_data now_iso)),
        [ESCall.mget ids])

/-- `ElasticsearchDocStatusStorage.filter_keys` (lines 657-675): returns the
keys not present in storage, the empty set immediately for an empty input,
and the full input set on a backend error. -/
def filter_keys (backend : Except String Store) (keys : Finset String) :
    Finset String × List ESCall :=
  if keys = ∅ then (∅, [])
  else
    match backend with
    | .error _ => (keys, [ESCall.mgetSet keys])
    | .ok store =>
      (keys \ keys.filter (fun k => containsKV store k), [ESCall.mgetSet keys])

end ElasticsearchDocStatusStorage

/-- C10: for every store — key-value, vector and doc-status alike — calling
`upsert` with an empty mapping, `delete` with an empty id list, `get_by_ids`
with an empty list, or `filter_keys` with an empty set issues no backend call
(and, for the vector store, no embedding computation), returns the trivial
result, and leaves the stored data unchanged. -/
theorem C10_empty_inputs_no_backend_call (namespace_ : String) (store : Store)
    (now : Int) (now_iso : String) (backend : Except String Store)
    (embed : List JVal → List JVal) (max_batch_size : Nat)
    (meta_fields : List String) :
    ElasticsearchKVStorage.upsert namespace_ store [] now = (store, [])
    ∧ ElasticsearchKVStorage.delete store [] = (store, [])
    ∧ ElasticsearchKVStorage.get_by_ids backend [] = ([], [])
    ∧ ElasticsearchKVStorage.filter_keys backend ∅ = (∅, [])
    ∧ ElasticsearchVectorStorage.upsert embed max_batch_size meta_fields
        store [] now = (store, [])
    ∧ ElasticsearchVectorStorage.delete store [] = (store, [])
    ∧ ElasticsearchVectorStorage.get_by_ids backend [] = ([], [])
    ∧ ElasticsearchDocStatusStorage.upsert now_iso store [] = (store, [])
    ∧ ElasticsearchDocStatusStorage.delete store [] = (store, [])
    ∧ ElasticsearchDocStatusStorage.get_by_ids now_iso backend [] = ([], [])
    ∧ ElasticsearchDocStatusStorage.filter_keys backend ∅ = (∅, []) := by
  refine ⟨rfl, rfl, rfl, ?_, rfl, rfl, rfl, rfl, rfl, rfl, ?_⟩
  · simp [ElasticsearchKVStorage.filter_keys]
  · simp [ElasticsearchDocStatusStorage.filter_keys]
